import Mathlib

/-!
# libnetconf2 `messages.c`: request constructors and message destructors

A shallow embedding of `src/messages.c` over an explicit heap.

* Addresses are natural numbers, `0` is `NULL`.
* The heap is an association list from addresses to blocks; a block is a C string
  buffer, a libyang data node, an XML fragment, a string of a libyang dictionary, an
  array, or one of the message records.
* Every function of `messages.c` is a function `State → Option _`; `none` stands for
  undefined behaviour of the C program (reading through `NULL` or through a dangling
  pointer, releasing a block that is not live).
* Allocation may fail: the state carries the schedule of the coming allocation
  attempts (`true` = this attempt returns `NULL`).
* Every successful allocation and every release is recorded in a chronological log.
-/

namespace Libnetconf2

/-! ## Scalar types -/

/-- A machine address; `0` is `NULL`. -/
abbrev Ptr := Nat

/-- The `NC_DATASTORE` enumeration (declared in a header; only stored by this file). -/
abbrev NC_DATASTORE := Nat

/-- The `NC_RPC_EDIT_DFLTOP` enumeration (only stored by this file). -/
abbrev NC_RPC_EDIT_DFLTOP := Nat

/-- The `NC_RPC_EDIT_TESTOPT` enumeration (only stored by this file). -/
abbrev NC_RPC_EDIT_TESTOPT := Nat

/-- The `NC_RPC_EDIT_ERROPT` enumeration (only stored by this file). -/
abbrev NC_RPC_EDIT_ERROPT := Nat

/-- Modelled from the spec: the enumeration `NC_RPC_PARAMTYPE` is declared in a header that
is not among the sources. `messages.c` names two of its values, `NC_RPC_PARAMTYPE_CONST`
and `NC_RPC_PARAMTYPE_DUP_AND_FREE`; the spec lists three policies (`CONST_REFERENCE`,
`BY_REFERENCE`, `DUP_AND_OWN`), so the remaining value `NC_RPC_PARAMTYPE_FREE` stands for the
spec's `BY_REFERENCE`. -/
inductive NC_RPC_PARAMTYPE
  | NC_RPC_PARAMTYPE_CONST
  | NC_RPC_PARAMTYPE_FREE
  | NC_RPC_PARAMTYPE_DUP_AND_FREE
  deriving DecidableEq, Repr

/-- The discriminant of a request, with the sixteen values `nc_rpc_free` switches on. -/
inductive NC_RPC_TYPE
  | NC_RPC_GENERIC
  | NC_RPC_GENERIC_XML
  | NC_RPC_GETCONFIG
  | NC_RPC_EDIT
  | NC_RPC_COPY
  | NC_RPC_DELETE
  | NC_RPC_LOCK
  | NC_RPC_UNLOCK
  | NC_RPC_GET
  | NC_RPC_KILL
  | NC_RPC_COMMIT
  | NC_RPC_DISCARD
  | NC_RPC_CANCEL
  | NC_RPC_VALIDATE
  | NC_RPC_GETSCHEMA
  | NC_RPC_SUBSCRIBE
  deriving DecidableEq, Repr

/-- The discriminant of a reply, with the four values `nc_reply_free` switches on. -/
inductive NC_REPLY
  | NC_REPLY_DATA
  | NC_REPLY_OK
  | NC_REPLY_ERROR
  | NC_REPLY_NOTIF
  deriving DecidableEq, Repr

/-! ## Heap blocks -/

/-- The record `struct nc_err` of one error of an error reply: eight strings of the
dictionary of the reply's context, and four arrays with their lengths (`attr`, `elem`
and `ns` hold dictionary strings, `other` holds XML fragments). -/
structure nc_err where
  type : Ptr
  tag : Ptr
  severity : Ptr
  apptag : Ptr
  path : Ptr
  message : Ptr
  message_lang : Ptr
  sid : Ptr
  attr : Ptr
  attr_count : Nat
  elem : Ptr
  elem_count : Nat
  ns : Ptr
  ns_count : Nat
  other : Ptr
  other_count : Nat
  deriving DecidableEq, Repr

/-- A heap block. The record layouts are declared in `messages_p.h`; each record has the
fields `messages.c` reads and writes, the discriminant `type` first.

Modelled from the spec: `nc_notif` has, besides the `tree` that `messages.c` reads, the
field `root` for the XML fragment the notification was parsed from (spec, data model:
a notification owns one content tree and the XML fragment it was parsed from). -/
inductive Obj
  /-- A `char` buffer holding the given bytes followed by the terminating NUL. -/
  | cstr (bytes : List Nat)
  /-- A libyang data node with its sibling links; `content` stands for its subtree. -/
  | lyd_node (next : Ptr) (prev : Ptr) (content : Nat)
  /-- A libyang XML fragment. -/
  | lyxml_elem (content : Nat)
  /-- Memory returned by `malloc` and not yet written. -/
  | uninit
  | nc_rpc (type : NC_RPC_TYPE)
  | nc_rpc_generic (type : NC_RPC_TYPE) (data : Ptr) (free : Nat)
  | nc_rpc_generic_xml (type : NC_RPC_TYPE) (xml_str : Ptr) (free : Nat)
  | nc_rpc_getconfig (type : NC_RPC_TYPE) (source : NC_DATASTORE) (filter : Ptr) (free : Nat)
  | nc_rpc_edit (type : NC_RPC_TYPE) (target : NC_DATASTORE) (default_op : NC_RPC_EDIT_DFLTOP)
      (test_opt : NC_RPC_EDIT_TESTOPT) (error_opt : NC_RPC_EDIT_ERROPT) (edit_cont : Ptr)
      (free : Nat)
  | nc_rpc_copy (type : NC_RPC_TYPE) (target : NC_DATASTORE) (url_trg : Ptr)
      (source : NC_DATASTORE) (url_config_src : Ptr) (free : Nat)
  | nc_rpc_delete (type : NC_RPC_TYPE) (target : NC_DATASTORE) (url : Ptr) (free : Nat)
  | nc_rpc_lock (type : NC_RPC_TYPE) (target : NC_DATASTORE)
  | nc_rpc_get (type : NC_RPC_TYPE) (filter : Ptr) (free : Nat)
  | nc_rpc_kill (type : NC_RPC_TYPE) (sid : Nat)
  | nc_rpc_commit (type : NC_RPC_TYPE) (confirmed : Int) (confirm_timeout : Nat)
      (persist : Ptr) (persist_id : Ptr) (free : Nat)
  | nc_rpc_cancel (type : NC_RPC_TYPE) (persist_id : Ptr) (free : Nat)
  | nc_rpc_validate (type : NC_RPC_TYPE) (source : NC_DATASTORE) (url_config_src : Ptr)
      (free : Nat)
  | nc_rpc_getschema (type : NC_RPC_TYPE) (identifier : Ptr) (version : Ptr) (format : Ptr)
      (free : Nat)
  | nc_rpc_subscribe (type : NC_RPC_TYPE) (stream : Ptr) (filter : Ptr) (start : Ptr)
      (stop : Ptr) (free : Nat)
  | nc_notif (type : NC_REPLY) (root : Ptr) (tree : Ptr)
  /-- The record `struct nc_reply`, all there is of an `NC_REPLY_OK` reply. -/
  | nc_reply (type : NC_REPLY)
  | nc_reply_data (type : NC_REPLY) (data : Ptr)
  /-- An error reply: `err` points to an array of `err_count` records, as `attr` with
  `attr_count` does in a record. -/
  | nc_reply_error (type : NC_REPLY) (ctx : Ptr) (err : Ptr) (err_count : Nat)
  /-- An array of `struct nc_err`. -/
  | nc_err_array (records : List nc_err)
  /-- An array of pointers (`const char **`, `struct lyxml_elem **`). -/
  | ptr_array (elems : List Ptr)
  /-- A string of the dictionary of the libyang context `ctx`, with the number of
  references the dictionary counts for it. -/
  | dict_str (ctx : Ptr) (bytes : List Nat) (refcount : Nat)
  deriving DecidableEq, Repr

/-- The read `rpc->type` through a `struct nc_rpc *`: every request record starts with
its discriminant; other blocks are not requests. -/
def Obj.rpc_type : Obj → Option NC_RPC_TYPE
  | .nc_rpc t => some t
  | .nc_rpc_generic t _ _ => some t
  | .nc_rpc_generic_xml t _ _ => some t
  | .nc_rpc_getconfig t _ _ _ => some t
  | .nc_rpc_edit t _ _ _ _ _ _ => some t
  | .nc_rpc_copy t _ _ _ _ _ => some t
  | .nc_rpc_delete t _ _ _ => some t
  | .nc_rpc_lock t _ => some t
  | .nc_rpc_get t _ _ => some t
  | .nc_rpc_kill t _ => some t
  | .nc_rpc_commit t _ _ _ _ _ => some t
  | .nc_rpc_cancel t _ _ => some t
  | .nc_rpc_validate t _ _ _ => some t
  | .nc_rpc_getschema t _ _ _ _ => some t
  | .nc_rpc_subscribe t _ _ _ _ _ => some t
  | _ => none

/-- The read `reply->type` through a `struct nc_reply *`: every reply record and the
notification record start with the discriminant; other blocks are not replies. -/
def Obj.reply_type : Obj → Option NC_REPLY
  | .nc_reply t => some t
  | .nc_reply_data t _ => some t
  | .nc_reply_error t _ _ _ => some t
  | .nc_notif t _ _ => some t
  | _ => none

/-! ## Machine state -/

/-- One call to an allocating or releasing library function that took effect. -/
inductive Event
  | malloc (p : Ptr)
  | strdup (src : Ptr) (dst : Ptr)
  | lyd_dup (src : Ptr) (dst : Ptr)
  | free (p : Ptr)
  | lyd_free (p : Ptr)
  | lyxml_free (p : Ptr)
  | lydict_remove (ctx : Ptr) (p : Ptr)
  deriving DecidableEq, Repr

/-- The machine state: live heap blocks, the outcome of the coming allocation attempts
(`true`: the attempt fails; past the end of the list every attempt succeeds), and the
chronological log of allocations and releases. -/
structure State where
  mem : List (Ptr × Obj)
  oom : List Bool
  log : List Event
  deriving DecidableEq, Repr

/-- The block at an address, if that address is live. -/
def State.get? (h : State) (p : Ptr) : Option Obj :=
  h.mem.lookup p

/-- An address above every live address, never `NULL`. -/
def State.fresh (h : State) : Ptr :=
  (h.mem.map Prod.fst).foldr max 0 + 1

/-- Overwrite (or create) the block at an address. -/
def State.set (h : State) (p : Ptr) (o : Obj) : State :=
  { h with mem := (p, o) :: h.mem.filter (fun e => e.1 != p) }

/-- Remove the block at an address from the live heap. -/
def State.del (h : State) (p : Ptr) : State :=
  { h with mem := h.mem.filter (fun e => e.1 != p) }

/-- Append an event to the log. -/
def State.emit (h : State) (e : Event) : State :=
  { h with log := h.log ++ [e] }

/-- Whether the next allocation attempt fails. -/
def State.alloc_fails (h : State) : Bool :=
  h.oom.headD false

/-- One allocation attempt storing `o`: `NULL` when the attempt fails, else a fresh
address holding `o`. The attempt is consumed from the schedule either way. -/
def State.alloc (h : State) (o : Obj) : Ptr × State :=
  if h.alloc_fails then (0, { h with oom := h.oom.tail })
  else (h.fresh, { mem := (h.fresh, o) :: h.mem, oom := h.oom.tail, log := h.log })

/-! ## libc and libyang collaborators -/

/-- The libc `isalpha` in the "C" locale, on a `char` value: the ASCII letters. -/
def isalpha (c : Nat) : Bool :=
  (65 ≤ c && c ≤ 90) || (97 ≤ c && c ≤ 122)

/-- The bytes of a string literal, as a C string holds them. -/
def cstring (s : String) : List Nat :=
  s.data.map Char.toNat

/-- The read `s[0]` through a `const char *`: the first byte of the buffer, the
terminating NUL for the empty string. Undefined through `NULL` or through an address
that holds no string. -/
def load_char0 (s : Ptr) (h : State) : Option Nat :=
  if s = 0 then none
  else match h.get? s with
    | some (Obj.cstr bytes) => some (bytes.headD 0)
    | _ => none

/-- The libc `malloc`: the block is uninitialised. -/
def malloc (h : State) : Ptr × State :=
  let r := h.alloc Obj.uninit
  if r.1 = 0 then r else (r.1, r.2.emit (Event.malloc r.1))

/-- The libc `strdup`: a fresh buffer with the bytes of `s`, or `NULL` when out of
memory. Undefined when `s` is not a string (in particular `NULL`). -/
def strdup (s : Ptr) (h : State) : Option (Ptr × State) :=
  if s = 0 then none
  else match h.get? s with
    | some (Obj.cstr bytes) =>
      let r := h.alloc (Obj.cstr bytes)
      some (if r.1 = 0 then r else (r.1, r.2.emit (Event.strdup s r.1)))
    | _ => none

/-- The libyang `lyd_dup(node, 1)`: a deep copy of the node and its subtree, without
siblings (`next` is `NULL`, `prev` points to the copy itself), or `NULL` when out of
memory. -/
def lyd_dup (node : Ptr) (h : State) : Option (Ptr × State) :=
  if node = 0 then some (0, h)
  else match h.get? node with
    | some (Obj.lyd_node _ _ content) =>
      let r := h.alloc (Obj.lyd_node 0 h.fresh content)
      some (if r.1 = 0 then r else (r.1, r.2.emit (Event.lyd_dup node r.1)))
    | _ => none

/-- The libc `free`: no effect on `NULL`, releases a live block, undefined otherwise. -/
def free (p : Ptr) (h : State) : Option State :=
  if p = 0 then some h
  else match h.get? p with
    | some _ => some ((h.del p).emit (Event.free p))
    | none => none

/-- The libyang `lyd_free`: no effect on `NULL`, releases a live data node with its
subtree, undefined otherwise. The unlinking of the node from its siblings is not
modelled: for the first node of a chain, the only one `messages.c` releases while
siblings are left, it rewrites `prev` links and no `next` link. -/
def lyd_free (p : Ptr) (h : State) : Option State :=
  if p = 0 then some h
  else match h.get? p with
    | some (Obj.lyd_node _ _ _) => some ((h.del p).emit (Event.lyd_free p))
    | _ => none

/-- The libyang `lyxml_free`: no effect on `NULL`, releases a live XML fragment,
undefined otherwise. -/
def lyxml_free (p : Ptr) (h : State) : Option State :=
  if p = 0 then some h
  else match h.get? p with
    | some (Obj.lyxml_elem _) => some ((h.del p).emit (Event.lyxml_free p))
    | _ => none

/-- The libyang `lydict_remove(ctx, value)`: no effect on `NULL`; gives back one
reference to a string of the dictionary of `ctx`, and the string is freed with its last
reference. Undefined when `value` is not a string of that dictionary. -/
def lydict_remove (ctx : Ptr) (value : Ptr) (h : State) : Option State :=
  if value = 0 then some h
  else match h.get? value with
    | some (Obj.dict_str c bytes refcount) =>
      if c = ctx ∧ refcount ≠ 0 then
        some ((if refcount = 1 then h.del value
          else h.set value (Obj.dict_str c bytes (refcount - 1))).emit
            (Event.lydict_remove ctx value))
      else none
    | _ => none

/-! ## Request constructors -/

/-- The C function `nc_rpc_generic`. -/
def nc_rpc_generic (data : Ptr) (paramtype : NC_RPC_PARAMTYPE) (h : State) :
    Option (Ptr × State) :=
  -- data->next, data->prev
  if data = 0 then none
  else match h.get? data with
    | some (Obj.lyd_node next prev _) =>
      if next ≠ 0 ∨ prev ≠ data then some (0, h)
      else
        let m := malloc h
        if m.1 = 0 then some (0, m.2)
        else
          (if paramtype = .NC_RPC_PARAMTYPE_DUP_AND_FREE then lyd_dup data m.2
           else some (data, m.2)).bind fun d =>
          some (m.1, d.2.set m.1 (Obj.nc_rpc_generic .NC_RPC_GENERIC d.1
            (if paramtype = .NC_RPC_PARAMTYPE_CONST then 0 else 1)))
    | _ => none

/-- The C function `nc_rpc_generic_xml`. -/
def nc_rpc_generic_xml (xml_str : Ptr) (paramtype : NC_RPC_PARAMTYPE) (h : State) :
    Option (Ptr × State) :=
  let m := malloc h
  if m.1 = 0 then some (0, m.2)
  else
    (if paramtype = .NC_RPC_PARAMTYPE_DUP_AND_FREE then strdup xml_str m.2
     else some (xml_str, m.2)).bind fun x =>
    some (m.1, x.2.set m.1 (Obj.nc_rpc_generic_xml .NC_RPC_GENERIC_XML x.1
      (if paramtype = .NC_RPC_PARAMTYPE_CONST then 0 else 1)))

/-- The C function `nc_rpc_getconfig`. -/
def nc_rpc_getconfig (source : NC_DATASTORE) (filter : Ptr) (paramtype : NC_RPC_PARAMTYPE)
    (h : State) : Option (Ptr × State) :=
  (load_char0 filter h).bind fun c =>
  if c ≠ 60 ∧ c ≠ 47 ∧ isalpha c = false then some (0, h)
  else
    let m := malloc h
    if m.1 = 0 then some (0, m.2)
    else
      (if filter ≠ 0 ∧ paramtype = .NC_RPC_PARAMTYPE_DUP_AND_FREE then strdup filter m.2
       else some (filter, m.2)).bind fun f =>
      some (m.1, f.2.set m.1 (Obj.nc_rpc_getconfig .NC_RPC_GETCONFIG source f.1
        (if paramtype = .NC_RPC_PARAMTYPE_CONST then 0 else 1)))

/-- The C function `nc_rpc_edit`. -/
def nc_rpc_edit (target : NC_DATASTORE) (default_op : NC_RPC_EDIT_DFLTOP)
    (test_opt : NC_RPC_EDIT_TESTOPT) (error_opt : NC_RPC_EDIT_ERROPT) (edit_content : Ptr)
    (paramtype : NC_RPC_PARAMTYPE) (h : State) : Option (Ptr × State) :=
  (load_char0 edit_content h).bind fun c =>
  if c ≠ 60 ∧ isalpha c = false then some (0, h)
  else
    let m := malloc h
    if m.1 = 0 then some (0, m.2)
    else
      (if paramtype = .NC_RPC_PARAMTYPE_DUP_AND_FREE then strdup edit_content m.2
       else some (edit_content, m.2)).bind fun e =>
      some (m.1, e.2.set m.1 (Obj.nc_rpc_edit .NC_RPC_EDIT target default_op test_opt
        error_opt e.1 (if paramtype = .NC_RPC_PARAMTYPE_CONST then 0 else 1)))

/-- The test `s && (s[0] != 60) && !isalpha(s[0])` of `nc_rpc_copy` and
`nc_rpc_validate`, evaluated left to right: `s[0]` is read only when `s` is not `NULL`. -/
def src_rejected (s : Ptr) (h : State) : Option Bool :=
  if s = 0 then some false
  else (load_char0 s h).bind fun c => some (decide (c ≠ 60) && !isalpha c)

/-- The C function `nc_rpc_copy`. -/
def nc_rpc_copy (target : NC_DATASTORE) (url_trg : Ptr) (source : NC_DATASTORE)
    (url_or_config_src : Ptr) (paramtype : NC_RPC_PARAMTYPE) (h : State) :
    Option (Ptr × State) :=
  (src_rejected url_or_config_src h).bind fun bad =>
  if bad then some (0, h)
  else
    let m := malloc h
    if m.1 = 0 then some (0, m.2)
    else
      (if url_trg ≠ 0 ∧ paramtype = .NC_RPC_PARAMTYPE_DUP_AND_FREE then strdup url_trg m.2
       else some (url_trg, m.2)).bind fun t =>
      (if url_or_config_src ≠ 0 ∧ paramtype = .NC_RPC_PARAMTYPE_DUP_AND_FREE
       then strdup url_or_config_src t.2
       else some (url_or_config_src, t.2)).bind fun s =>
      some (m.1, s.2.set m.1 (Obj.nc_rpc_copy .NC_RPC_COPY target t.1 source s.1
        (if paramtype = .NC_RPC_PARAMTYPE_CONST then 0 else 1)))

/-- The C function `nc_rpc_delete`. -/
def nc_rpc_delete (target : NC_DATASTORE) (url : Ptr) (paramtype : NC_RPC_PARAMTYPE)
    (h : State) : Option (Ptr × State) :=
  let m := malloc h
  if m.1 = 0 then some (0, m.2)
  else
    (if url ≠ 0 ∧ paramtype = .NC_RPC_PARAMTYPE_DUP_AND_FREE then strdup url m.2
     else some (url, m.2)).bind fun u =>
    some (m.1, u.2.set m.1 (Obj.nc_rpc_delete .NC_RPC_DELETE target u.1
      (if paramtype = .NC_RPC_PARAMTYPE_CONST then 0 else 1)))

/-- The C function `nc_rpc_lock`. -/
def nc_rpc_lock (target : NC_DATASTORE) (h : State) : Option (Ptr × State) :=
  let m := malloc h
  if m.1 = 0 then some (0, m.2)
  else some (m.1, m.2.set m.1 (Obj.nc_rpc_lock .NC_RPC_LOCK target))

/-- The C function `nc_rpc_unlock`; it fills a `struct nc_rpc_lock`. -/
def nc_rpc_unlock (target : NC_DATASTORE) (h : State) : Option (Ptr × State) :=
  let m := malloc h
  if m.1 = 0 then some (0, m.2)
  else some (m.1, m.2.set m.1 (Obj.nc_rpc_lock .NC_RPC_UNLOCK target))

/-- The C function `nc_rpc_get`. -/
def nc_rpc_get (filter : Ptr) (paramtype : NC_RPC_PARAMTYPE) (h : State) :
    Option (Ptr × State) :=
  (load_char0 filter h).bind fun c =>
  if c ≠ 60 ∧ c ≠ 47 ∧ isalpha c = false then some (0, h)
  else
    let m := malloc h
    if m.1 = 0 then some (0, m.2)
    else
      (if filter ≠ 0 ∧ paramtype = .NC_RPC_PARAMTYPE_DUP_AND_FREE then strdup filter m.2
       else some (filter, m.2)).bind fun f =>
      some (m.1, f.2.set m.1 (Obj.nc_rpc_get .NC_RPC_GET f.1
        (if paramtype = .NC_RPC_PARAMTYPE_CONST then 0 else 1)))

/-- The C function `nc_rpc_kill`. -/
def nc_rpc_kill (session_id : Nat) (h : State) : Option (Ptr × State) :=
  let m := malloc h
  if m.1 = 0 then some (0, m.2)
  else some (m.1, m.2.set m.1 (Obj.nc_rpc_kill .NC_RPC_KILL session_id))

/-- The C function `nc_rpc_commit`. -/
def nc_rpc_commit (confirmed : Int) (confirm_timeout : Nat) (persist : Ptr)
    (persist_id : Ptr) (paramtype : NC_RPC_PARAMTYPE) (h : State) : Option (Ptr × State) :=
  let m := malloc h
  if m.1 = 0 then some (0, m.2)
  else
    (if persist ≠ 0 ∧ paramtype = .NC_RPC_PARAMTYPE_DUP_AND_FREE then strdup persist m.2
     else some (persist, m.2)).bind fun p =>
    (if persist_id ≠ 0 ∧ paramtype = .NC_RPC_PARAMTYPE_DUP_AND_FREE then strdup persist_id p.2
     else some (persist_id, p.2)).bind fun i =>
    some (m.1, i.2.set m.1 (Obj.nc_rpc_commit .NC_RPC_COMMIT confirmed confirm_timeout p.1 i.1
      (if paramtype = .NC_RPC_PARAMTYPE_CONST then 0 else 1)))

/-- The C function `nc_rpc_discard`. -/
def nc_rpc_discard (h : State) : Option (Ptr × State) :=
  let m := malloc h
  if m.1 = 0 then some (0, m.2)
  else some (m.1, m.2.set m.1 (Obj.nc_rpc .NC_RPC_DISCARD))

/-- The C function `nc_rpc_cancel`. -/
def nc_rpc_cancel (persist_id : Ptr) (paramtype : NC_RPC_PARAMTYPE) (h : State) :
    Option (Ptr × State) :=
  let m := malloc h
  if m.1 = 0 then some (0, m.2)
  else
    (if persist_id ≠ 0 ∧ paramtype = .NC_RPC_PARAMTYPE_DUP_AND_FREE then strdup persist_id m.2
     else some (persist_id, m.2)).bind fun i =>
    some (m.1, i.2.set m.1 (Obj.nc_rpc_cancel .NC_RPC_CANCEL i.1
      (if paramtype = .NC_RPC_PARAMTYPE_CONST then 0 else 1)))

/-- The C function `nc_rpc_validate`. -/
def nc_rpc_validate (source : NC_DATASTORE) (url_or_config : Ptr)
    (paramtype : NC_RPC_PARAMTYPE) (h : State) : Option (Ptr × State) :=
  (src_rejected url_or_config h).bind fun bad =>
  if bad then some (0, h)
  else
    let m := malloc h
    if m.1 = 0 then some (0, m.2)
    else
      (if url_or_config ≠ 0 ∧ paramtype = .NC_RPC_PARAMTYPE_DUP_AND_FREE
       then strdup url_or_config m.2
       else some (url_or_config, m.2)).bind fun s =>
      some (m.1, s.2.set m.1 (Obj.nc_rpc_validate .NC_RPC_VALIDATE source s.1
        (if paramtype = .NC_RPC_PARAMTYPE_CONST then 0 else 1)))

/-- The C function `nc_rpc_getschema`. -/
def nc_rpc_getschema (identifier : Ptr) (version : Ptr) (format : Ptr)
    (paramtype : NC_RPC_PARAMTYPE) (h : State) : Option (Ptr × State) :=
  let m := malloc h
  if m.1 = 0 then some (0, m.2)
  else
    (if paramtype = .NC_RPC_PARAMTYPE_DUP_AND_FREE then strdup identifier m.2
     else some (identifier, m.2)).bind fun i =>
    (if version ≠ 0 ∧ paramtype = .NC_RPC_PARAMTYPE_DUP_AND_FREE then strdup version i.2
     else some (version, i.2)).bind fun v =>
    (if format ≠ 0 ∧ paramtype = .NC_RPC_PARAMTYPE_DUP_AND_FREE then strdup format v.2
     else some (format, v.2)).bind fun f =>
    some (m.1, f.2.set m.1 (Obj.nc_rpc_getschema .NC_RPC_GETSCHEMA i.1 v.1 f.1
      (if paramtype = .NC_RPC_PARAMTYPE_CONST then 0 else 1)))

/-- The C function `nc_rpc_subscribe`. -/
def nc_rpc_subscribe (stream_name : Ptr) (filter : Ptr) (start_time : Ptr) (stop_time : Ptr)
    (paramtype : NC_RPC_PARAMTYPE) (h : State) : Option (Ptr × State) :=
  (load_char0 filter h).bind fun c =>
  if c ≠ 60 ∧ c ≠ 47 ∧ isalpha c = false then some (0, h)
  else
    let m := malloc h
    if m.1 = 0 then some (0, m.2)
    else
      (if stream_name ≠ 0 ∧ paramtype = .NC_RPC_PARAMTYPE_DUP_AND_FREE
       then strdup stream_name m.2
       else some (stream_name, m.2)).bind fun s =>
      (if filter ≠ 0 ∧ paramtype = .NC_RPC_PARAMTYPE_DUP_AND_FREE then strdup filter s.2
       else some (filter, s.2)).bind fun f =>
      (if start_time ≠ 0 ∧ paramtype = .NC_RPC_PARAMTYPE_DUP_AND_FREE
       then strdup start_time f.2
       else some (start_time, f.2)).bind fun b =>
      (if stop_time ≠ 0 ∧ paramtype = .NC_RPC_PARAMTYPE_DUP_AND_FREE
       then strdup stop_time b.2
       else some (stop_time, b.2)).bind fun e =>
      some (m.1, e.2.set m.1 (Obj.nc_rpc_subscribe .NC_RPC_SUBSCRIBE s.1 f.1 b.1 e.1
        (if paramtype = .NC_RPC_PARAMTYPE_CONST then 0 else 1)))

/-! ## Destructors -/

/-- The C function `nc_rpc_free`. A `case` casts the request to the record of that kind;
the cast of a block that is no such record is undefined. -/
def nc_rpc_free (rpc : Ptr) (h : State) : Option State :=
  if rpc = 0 then some h
  else
    (h.get? rpc).bind fun o =>
    o.rpc_type.bind fun t =>
    (match t with
     | .NC_RPC_GENERIC =>
       match o with
       | .nc_rpc_generic _ data fr => if fr ≠ 0 then lyd_free data h else some h
       | _ => none
     | .NC_RPC_GENERIC_XML =>
       match o with
       | .nc_rpc_generic_xml _ xml_str fr => if fr ≠ 0 then free xml_str h else some h
       | _ => none
     | .NC_RPC_GETCONFIG =>
       match o with
       | .nc_rpc_getconfig _ _ filter fr => if fr ≠ 0 then free filter h else some h
       | _ => none
     | .NC_RPC_EDIT =>
       match o with
       | .nc_rpc_edit _ _ _ _ _ edit_cont fr => if fr ≠ 0 then free edit_cont h else some h
       | _ => none
     | .NC_RPC_COPY =>
       match o with
       | .nc_rpc_copy _ _ _ _ url_config_src fr =>
         if fr ≠ 0 then free url_config_src h else some h
       | _ => none
     | .NC_RPC_DELETE =>
       match o with
       | .nc_rpc_delete _ _ url fr => if fr ≠ 0 then free url h else some h
       | _ => none
     | .NC_RPC_GET =>
       match o with
       | .nc_rpc_get _ filter fr => if fr ≠ 0 then free filter h else some h
       | _ => none
     | .NC_RPC_COMMIT =>
       match o with
       | .nc_rpc_commit _ _ _ persist persist_id fr =>
         if fr ≠ 0 then (free persist h).bind (free persist_id) else some h
       | _ => none
     | .NC_RPC_CANCEL =>
       match o with
       | .nc_rpc_cancel _ persist_id fr => if fr ≠ 0 then free persist_id h else some h
       | _ => none
     | .NC_RPC_VALIDATE =>
       match o with
       | .nc_rpc_validate _ _ url_config_src fr =>
         if fr ≠ 0 then free url_config_src h else some h
       | _ => none
     | .NC_RPC_GETSCHEMA =>
       match o with
       | .nc_rpc_getschema _ identifier version format fr =>
         if fr ≠ 0 then ((free identifier h).bind (free version)).bind (free format)
         else some h
       | _ => none
     | .NC_RPC_SUBSCRIBE =>
       match o with
       | .nc_rpc_subscribe _ stream filter start stop fr =>
         if fr ≠ 0 then
           (((free stream h).bind (free filter)).bind (free start)).bind (free stop)
         else some h
       | _ => none
     | .NC_RPC_KILL => some h
     | .NC_RPC_DISCARD => some h
     | .NC_RPC_LOCK => some h
     | .NC_RPC_UNLOCK => some h).bind fun h1 =>
    free rpc h1

/-- The C function `nc_notif_free`. -/
def nc_notif_free (notif : Ptr) (h : State) : Option State :=
  if notif = 0 then some h
  else match h.get? notif with
    | some (Obj.nc_notif _ _ tree) => (lyd_free tree h).bind (free notif)
    | _ => none

/-- The loop `for (node = data->data; data->data; node = data->data)` of
`nc_reply_free`, with body `data->data = node->next; lyd_free(node);`. The first argument
bounds the number of tests of the loop condition. -/
def free_data_loop : Nat → Ptr → State → Option State
  | 0, _, _ => none
  | fuel + 1, reply, h =>
    match h.get? reply with
    | some (Obj.nc_reply_data t node) =>
      if node = 0 then some h
      else
        match h.get? node with
        | some (Obj.lyd_node next _ _) =>
          (lyd_free node (h.set reply (Obj.nc_reply_data t next))).bind
            (free_data_loop fuel reply)
        | _ => none
    | _ => none

/-- The loops `for (j = 0; j < count; ++j) lydict_remove(ctx, arr[j]);` of
`nc_reply_free`, entered at index `j` with `count - j` iterations left. -/
def remove_elems (ctx : Ptr) (arr : Ptr) : Nat → Nat → State → Option State
  | _, 0, h => some h
  | j, left + 1, h =>
    if arr = 0 then none
    else
      match h.get? arr with
      | some (Obj.ptr_array elems) =>
        match elems[j]? with
        | some e => (lydict_remove ctx e h).bind (remove_elems ctx arr (j + 1) left)
        | none => none
      | _ => none

/-- The loop `for (j = 0; j < other_count; ++j) lyxml_free(ctx, other[j]);` of
`nc_reply_free`, entered at index `j` with `other_count - j` iterations left. -/
def free_fragments (arr : Ptr) : Nat → Nat → State → Option State
  | _, 0, h => some h
  | j, left + 1, h =>
    if arr = 0 then none
    else
      match h.get? arr with
      | some (Obj.ptr_array elems) =>
        match elems[j]? with
        | some e => (lyxml_free e h).bind (free_fragments arr (j + 1) left)
        | none => none
      | _ => none

/-- The body of the loop over the error records in `nc_reply_free`, on the record
`error->err[i]`: its calls in program order, each run on the state the one before
left. -/
def free_error_record (ctx : Ptr) (e : nc_err) (h : State) : Option State :=
  [lydict_remove ctx e.type, lydict_remove ctx e.tag, lydict_remove ctx e.severity,
    lydict_remove ctx e.apptag, lydict_remove ctx e.path, lydict_remove ctx e.message,
    lydict_remove ctx e.message_lang, lydict_remove ctx e.sid,
    remove_elems ctx e.attr 0 e.attr_count, free e.attr,
    remove_elems ctx e.elem 0 e.elem_count, free e.elem,
    remove_elems ctx e.ns 0 e.ns_count, free e.ns,
    free_fragments e.other 0 e.other_count, free e.other].foldlM (fun s call => call s) h

/-- The loop `for (i = 0; i < error->err_count; ++i)` of `nc_reply_free`, entered at index
`i` with `err_count - i` iterations left. -/
def free_error_records (ctx : Ptr) (err : Ptr) : Nat → Nat → State → Option State
  | _, 0, h => some h
  | i, left + 1, h =>
    if err = 0 then none
    else
      match h.get? err with
      | some (Obj.nc_err_array records) =>
        match records[i]? with
        | some e => (free_error_record ctx e h).bind (free_error_records ctx err (i + 1) left)
        | none => none
      | _ => none

/-- The C function `nc_reply_free`. A `case` casts the reply to the record of that kind;
the cast of a block that is no such record is undefined. The loop over the data nodes
releases a live block in every iteration, so one more test than there are live blocks
bounds it. -/
def nc_reply_free (reply : Ptr) (h : State) : Option State :=
  if reply = 0 then some h
  else
    (h.get? reply).bind fun o =>
    o.reply_type.bind fun t =>
    (match t with
     | .NC_REPLY_DATA =>
       match o with
       | .nc_reply_data _ _ => free_data_loop (h.mem.length + 1) reply h
       | _ => none
     | .NC_REPLY_OK => some h
     | .NC_REPLY_ERROR =>
       match o with
       | .nc_reply_error _ ctx err err_count => free_error_records ctx err 0 err_count h
       | _ => none
     | .NC_REPLY_NOTIF => nc_notif_free reply h).bind fun h1 =>
    free reply h1

/-! ## Vocabulary of the specification -/

/-- A call of one of the twelve constructors that take an ownership policy, with its
arguments other than the policy. -/
inductive Call
  | generic (data : Ptr)
  | generic_xml (xml_str : Ptr)
  | getconfig (source : NC_DATASTORE) (filter : Ptr)
  | edit (target : NC_DATASTORE) (default_op : NC_RPC_EDIT_DFLTOP)
      (test_opt : NC_RPC_EDIT_TESTOPT) (error_opt : NC_RPC_EDIT_ERROPT) (edit_content : Ptr)
  | copy (target : NC_DATASTORE) (url_trg : Ptr) (source : NC_DATASTORE)
      (url_or_config_src : Ptr)
  | delete (target : NC_DATASTORE) (url : Ptr)
  | get (filter : Ptr)
  | commit (confirmed : Int) (confirm_timeout : Nat) (persist : Ptr) (persist_id : Ptr)
  | cancel (persist_id : Ptr)
  | validate (source : NC_DATASTORE) (url_or_config : Ptr)
  | getschema (identifier : Ptr) (version : Ptr) (format : Ptr)
  | subscribe (stream_name : Ptr) (filter : Ptr) (start_time : Ptr) (stop_time : Ptr)
  deriving DecidableEq, Repr

/-- Run the constructor a call names under a policy. -/
def Call.run (c : Call) (paramtype : NC_RPC_PARAMTYPE) (h : State) : Option (Ptr × State) :=
  match c with
  | .generic data => nc_rpc_generic data paramtype h
  | .generic_xml xml_str => nc_rpc_generic_xml xml_str paramtype h
  | .getconfig source filter => nc_rpc_getconfig source filter paramtype h
  | .edit target default_op test_opt error_opt edit_content =>
    nc_rpc_edit target default_op test_opt error_opt edit_content paramtype h
  | .copy target url_trg source url_or_config_src =>
    nc_rpc_copy target url_trg source url_or_config_src paramtype h
  | .delete target url => nc_rpc_delete target url paramtype h
  | .get filter => nc_rpc_get filter paramtype h
  | .commit confirmed confirm_timeout persist persist_id =>
    nc_rpc_commit confirmed confirm_timeout persist persist_id paramtype h
  | .cancel persist_id => nc_rpc_cancel persist_id paramtype h
  | .validate source url_or_config => nc_rpc_validate source url_or_config paramtype h
  | .getschema identifier version format =>
    nc_rpc_getschema identifier version format paramtype h
  | .subscribe stream_name filter start_time stop_time =>
    nc_rpc_subscribe stream_name filter start_time stop_time paramtype h

/-- Spec wording: the request of the call's kind that stores the caller's values as
given, with the given ownership flag. -/
def Call.as_given (c : Call) (flag : Nat) : Obj :=
  match c with
  | .generic data => .nc_rpc_generic .NC_RPC_GENERIC data flag
  | .generic_xml xml_str => .nc_rpc_generic_xml .NC_RPC_GENERIC_XML xml_str flag
  | .getconfig source filter => .nc_rpc_getconfig .NC_RPC_GETCONFIG source filter flag
  | .edit target default_op test_opt error_opt edit_content =>
    .nc_rpc_edit .NC_RPC_EDIT target default_op test_opt error_opt edit_content flag
  | .copy target url_trg source url_or_config_src =>
    .nc_rpc_copy .NC_RPC_COPY target url_trg source url_or_config_src flag
  | .delete target url => .nc_rpc_delete .NC_RPC_DELETE target url flag
  | .get filter => .nc_rpc_get .NC_RPC_GET filter flag
  | .commit confirmed confirm_timeout persist persist_id =>
    .nc_rpc_commit .NC_RPC_COMMIT confirmed confirm_timeout persist persist_id flag
  | .cancel persist_id => .nc_rpc_cancel .NC_RPC_CANCEL persist_id flag
  | .validate source url_or_config => .nc_rpc_validate .NC_RPC_VALIDATE source url_or_config flag
  | .getschema identifier version format =>
    .nc_rpc_getschema .NC_RPC_GETSCHEMA identifier version format flag
  | .subscribe stream_name filter start_time stop_time =>
    .nc_rpc_subscribe .NC_RPC_SUBSCRIBE stream_name filter start_time stop_time flag

/-- Spec wording for a filter: it begins with `<` (60), `/` (47) or an ASCII letter. -/
def begins_xml_xpath_or_letter (bytes : List Nat) : Bool :=
  match bytes with
  | [] => false
  | c :: _ => c == 60 || c == 47 || (65 ≤ c && c ≤ 90) || (97 ≤ c && c ≤ 122)

/-- Spec wording for edit content and for a copy/validate source: it begins with `<` (60)
or an ASCII letter. -/
def begins_xml_or_letter (bytes : List Nat) : Bool :=
  match bytes with
  | [] => false
  | c :: _ => c == 60 || (65 ≤ c && c ≤ 90) || (97 ≤ c && c ≤ 122)

/-- The pointer is not `NULL` and points to a string that satisfies `shape`. -/
def is_string_with (shape : List Nat → Bool) (s : Ptr) (h : State) : Bool :=
  s != 0 &&
    match h.get? s with
    | some (Obj.cstr bytes) => shape bytes
    | _ => false

/-- The pointer is `NULL` or points to a string. -/
def null_or_string (s : Ptr) (h : State) : Bool :=
  s == 0 || is_string_with (fun _ => true) s h

/-- The pointer points to a data node that is a single root: no next sibling, and its
previous-sibling link points to the node itself. -/
def is_single_root (data : Ptr) (h : State) : Bool :=
  data != 0 &&
    match h.get? data with
    | some (Obj.lyd_node next prev _) => next == 0 && prev == data
    | _ => false

/-- Spec wording: the arguments of the call pass the shape check of its constructor. -/
def Call.accepted (c : Call) (h : State) : Bool :=
  match c with
  | .generic data => is_single_root data h
  | .getconfig _ filter => is_string_with begins_xml_xpath_or_letter filter h
  | .get filter => is_string_with begins_xml_xpath_or_letter filter h
  | .subscribe _ filter _ _ => is_string_with begins_xml_xpath_or_letter filter h
  | .edit _ _ _ _ edit_content => is_string_with begins_xml_or_letter edit_content h
  | .copy _ _ _ src => src == 0 || is_string_with begins_xml_or_letter src h
  | .validate _ src => src == 0 || is_string_with begins_xml_or_letter src h
  | _ => true

/-- The state right after a successful `malloc` in `h`. -/
def State.after_malloc (h : State) : State :=
  State.mk ((h.fresh, Obj.uninit) :: h.mem) h.oom.tail (h.log ++ [Event.malloc h.fresh])

/-- Spec wording: the arguments of the call fail the shape check of its constructor
(constructors without a shape check reject nothing). -/
def Call.rejected (c : Call) (h : State) : Bool :=
  match c with
  | .generic data =>
    data != 0 &&
      match h.get? data with
      | some (Obj.lyd_node next prev _) => next != 0 || prev != data
      | _ => false
  | .getconfig _ filter => is_string_with (fun b => !begins_xml_xpath_or_letter b) filter h
  | .get filter => is_string_with (fun b => !begins_xml_xpath_or_letter b) filter h
  | .subscribe _ filter _ _ => is_string_with (fun b => !begins_xml_xpath_or_letter b) filter h
  | .edit _ _ _ _ edit_content => is_string_with (fun b => !begins_xml_or_letter b) edit_content h
  | .copy _ _ _ src => is_string_with (fun b => !begins_xml_or_letter b) src h
  | .validate _ src => is_string_with (fun b => !begins_xml_or_letter b) src h
  | _ => false

/-- The string parameters of the call that no shape check reads are what the C types
promise: a required string points to a string, an optional one is `NULL` or points to
a string. -/
def Call.strings_valid (c : Call) (h : State) : Bool :=
  match c with
  | .generic_xml xml_str => is_string_with (fun _ => true) xml_str h
  | .copy _ url_trg _ _ => null_or_string url_trg h
  | .delete _ url => null_or_string url h
  | .commit _ _ persist persist_id => null_or_string persist h && null_or_string persist_id h
  | .cancel persist_id => null_or_string persist_id h
  | .getschema identifier version format =>
    is_string_with (fun _ => true) identifier h && null_or_string version h &&
      null_or_string format h
  | .subscribe stream_name _ start_time stop_time =>
    null_or_string stream_name h && null_or_string start_time h && null_or_string stop_time h
  | _ => true

/-- The values `nc_rpc_free` releases when the ownership flag of the request is set, in
the order of the calls in the `case` of the call's kind. -/
def Call.released (c : Call) : List Ptr :=
  match c with
  | .generic data => [data]
  | .generic_xml xml_str => [xml_str]
  | .getconfig _ filter => [filter]
  | .edit _ _ _ _ edit_content => [edit_content]
  | .copy _ _ _ url_or_config_src => [url_or_config_src]
  | .delete _ url => [url]
  | .get filter => [filter]
  | .commit _ _ persist persist_id => [persist, persist_id]
  | .cancel persist_id => [persist_id]
  | .validate _ url_or_config => [url_or_config]
  | .getschema identifier version format => [identifier, version, format]
  | .subscribe stream_name filter start_time stop_time =>
    [stream_name, filter, start_time, stop_time]

/-- The release function `nc_rpc_free` applies to a field of a request of the call's
kind: `lyd_free` for the tree of a generic request, `free` for a string. -/
def Call.release (c : Call) (p : Ptr) (s : State) : Option State :=
  match c with
  | .generic _ => lyd_free p s
  | _ => free p s

/-- The log entry of `Call.release` on a pointer that is not `NULL`. -/
def Call.release_event (c : Call) (p : Ptr) : Event :=
  match c with
  | .generic _ => Event.lyd_free p
  | _ => Event.free p

/-- Consecutive releases of the pointers of a list. -/
def Call.release_all (c : Call) : List Ptr → State → Option State
  | [], s => some s
  | p :: ps, s => (c.release p s).bind (c.release_all ps)

/-- The block at `p` is one that `Call.release` can release: a live data node for a
generic request, a live block otherwise. -/
def Call.can_release (c : Call) (p : Ptr) (s : State) : Bool :=
  match c with
  | .generic _ =>
    match s.get? p with
    | some (Obj.lyd_node _ _ _) => true
    | _ => false
  | _ => (s.get? p).isSome

/-- What a caller who hands its values over must provide: every value that is not `NULL`
is a live block of its own (no two parameters share a block). -/
def Call.handed_over (c : Call) (h : State) : Bool :=
  c.released.all (fun p => p == 0 || c.can_release p h) &&
    decide ((c.released.filter (fun p => p != 0)).Nodup)

/-- A heap to run the functions on: the strings `<filter/>`, `/a/b`, `abc` and `123bad`
at addresses 1 to 4, a stand-alone data node at 5, a data node at 6 with the next sibling
7, and at 10 a notification with the XML fragment 8 and the content tree 9. No
allocation failure is scheduled. -/
def sample : State :=
  { mem := [(1, Obj.cstr (cstring "<filter/>")), (2, Obj.cstr (cstring "/a/b")),
      (3, Obj.cstr (cstring "abc")), (4, Obj.cstr (cstring "123bad")),
      (5, Obj.lyd_node 0 5 50), (6, Obj.lyd_node 7 7 60), (7, Obj.lyd_node 0 6 70),
      (8, Obj.lyxml_elem 80), (9, Obj.lyd_node 0 9 90),
      (10, Obj.nc_notif .NC_REPLY_NOTIF 8 9)],
    oom := [],
    log := [] }

/-- Spec wording: a finite sibling chain. Following the `next` links from `first` visits
exactly the nodes of the list, in order, and then reaches `NULL`. -/
def is_chain (h : State) : Ptr → List Ptr → Bool
  | p, [] => p == 0
  | p, q :: qs =>
    p == q && p != 0 &&
      match h.get? p with
      | some (Obj.lyd_node next _ _) => is_chain h next qs
      | _ => false

/-- Spec wording: the kind of operation a constructor is asked to build. -/
def Call.kind (c : Call) : NC_RPC_TYPE :=
  match c with
  | .generic _ => .NC_RPC_GENERIC
  | .generic_xml _ => .NC_RPC_GENERIC_XML
  | .getconfig _ _ => .NC_RPC_GETCONFIG
  | .edit _ _ _ _ _ => .NC_RPC_EDIT
  | .copy _ _ _ _ => .NC_RPC_COPY
  | .delete _ _ => .NC_RPC_DELETE
  | .get _ => .NC_RPC_GET
  | .commit _ _ _ _ => .NC_RPC_COMMIT
  | .cancel _ => .NC_RPC_CANCEL
  | .validate _ _ => .NC_RPC_VALIDATE
  | .getschema _ _ _ => .NC_RPC_GETSCHEMA
  | .subscribe _ _ _ _ => .NC_RPC_SUBSCRIBE

/-- The string or tree parameters of a call, in the order the constructor stores them. -/
def Call.ptrs (c : Call) : List Ptr :=
  match c with
  | .generic data => [data]
  | .generic_xml xml_str => [xml_str]
  | .getconfig _ filter => [filter]
  | .edit _ _ _ _ edit_content => [edit_content]
  | .copy _ url_trg _ url_or_config_src => [url_trg, url_or_config_src]
  | .delete _ url => [url]
  | .get filter => [filter]
  | .commit _ _ persist persist_id => [persist, persist_id]
  | .cancel persist_id => [persist_id]
  | .validate _ url_or_config => [url_or_config]
  | .getschema identifier version format => [identifier, version, format]
  | .subscribe stream_name filter start_time stop_time =>
    [stream_name, filter, start_time, stop_time]

/-- The call with the same scalar parameters and the string or tree parameters replaced
by the pointers of the list. -/
def Call.with_ptrs (c : Call) (qs : List Ptr) : Call :=
  match c, qs with
  | .generic _, [a] => .generic a
  | .generic_xml _, [a] => .generic_xml a
  | .getconfig source _, [a] => .getconfig source a
  | .edit target default_op test_opt error_opt _, [a] =>
    .edit target default_op test_opt error_opt a
  | .copy target _ source _, [a, b] => .copy target a source b
  | .delete target _, [a] => .delete target a
  | .get _, [a] => .get a
  | .commit confirmed confirm_timeout _ _, [a, b] => .commit confirmed confirm_timeout a b
  | .cancel _, [a] => .cancel a
  | .validate source _, [a] => .validate source a
  | .getschema _ _ _, [a, b, d] => .getschema a b d
  | .subscribe _ _ _ _, [a, b, d, e] => .subscribe a b d e
  | c, _ => c

/-- The string parameter the shape check of the constructor reads, if it has one. -/
def Call.checked (c : Call) : Option Ptr :=
  match c with
  | .getconfig _ filter => some filter
  | .get filter => some filter
  | .subscribe _ filter _ _ => some filter
  | .edit _ _ _ _ edit_content => some edit_content
  | .copy _ _ _ src => some src
  | .validate _ src => some src
  | _ => none

/-- Spec wording: the shape the constructor asks of its checked string. -/
def Call.shape (c : Call) (bytes : List Nat) : Bool :=
  match c with
  | .getconfig _ _ => begins_xml_xpath_or_letter bytes
  | .get _ => begins_xml_xpath_or_letter bytes
  | .subscribe _ _ _ _ => begins_xml_xpath_or_letter bytes
  | _ => begins_xml_or_letter bytes

/-- A heap of strings: `abc` at 1, `axyz` at 2, the empty string at 3, `1a` at 4 and `12`
at 5. No allocation failure is scheduled. -/
def sample_strings : State :=
  { mem := [(1, Obj.cstr (cstring "abc")), (2, Obj.cstr (cstring "axyz")),
      (3, Obj.cstr (cstring "")), (4, Obj.cstr (cstring "1a")),
      (5, Obj.cstr (cstring "12"))],
    oom := [],
    log := [] }

/-- Spec wording: the duplication of one string parameter under `DUP_AND_OWN`. An absent
(`NULL`) parameter stays absent and nothing is duplicated; a string is copied into a
fresh buffer, which is logged as one `strdup`. -/
def dup_one (s : Ptr) (h : State) : Ptr × State :=
  if s = 0 then (0, h)
  else
    match h.get? s with
    | some (Obj.cstr bytes) =>
      (h.fresh, State.mk ((h.fresh, Obj.cstr bytes) :: h.mem) h.oom.tail
        (h.log ++ [Event.strdup s h.fresh]))
    | _ => (0, h)

/-- Spec wording: the duplication of the string parameters of a call, one after the
other. -/
def dup_all : List Ptr → State → List Ptr × State
  | [], h => ([], h)
  | s :: ss, h =>
    ((dup_one s h).1 :: (dup_all ss (dup_one s h).2).1, (dup_all ss (dup_one s h).2).2)

/-- No allocation failure is scheduled. -/
def State.no_failure (h : State) : Bool :=
  h.oom.all (fun b => !b)

/-- The constructors with an optional string parameter: `nc_rpc_commit`, `nc_rpc_cancel`,
`nc_rpc_delete`, `nc_rpc_copy`, `nc_rpc_validate`, `nc_rpc_getschema` and
`nc_rpc_subscribe`. -/
def Call.has_optional_string (c : Call) : Bool :=
  match c with
  | .commit _ _ _ _ => true
  | .cancel _ => true
  | .delete _ _ => true
  | .copy _ _ _ _ => true
  | .validate _ _ => true
  | .getschema _ _ _ => true
  | .subscribe _ _ _ _ => true
  | _ => false

/-- The `strdup` log entries of a duplication: one for each parameter that is not `NULL`,
from the parameter to its copy. -/
def strdup_events (ss qs : List Ptr) : List Event :=
  ((ss.zip qs).filter (fun sq => sq.1 != 0)).map (fun sq => Event.strdup sq.1 sq.2)

/-- The heap `sample` with the allocation schedule "the first attempt succeeds, the
second fails". -/
def sample_oom : State :=
  { sample with oom := [false, true] }

/-- A heap with replies. The context is 100. At 31 an error reply with the two records of
the array 30: the first has the eight strings 1 to 8, the attributes 9 and 10 in the
array 20, the element 11 in the array 21, the namespace 12 in the array 22 and the XML
fragment 13 in the array 23; the second has the type string 1 again (the dictionary
counts two references), the attribute 14 in the array 24 and nothing else. At 43 a data
reply with the sibling chain 40, 41, 42; at 44 an ok reply; at 47 a notification with the
XML fragment 45 and the content tree 46. -/
def sample_replies : State :=
  { mem := [(1, Obj.dict_str 100 (cstring "rpc") 2), (2, Obj.dict_str 100 (cstring "tag") 1),
      (3, Obj.dict_str 100 (cstring "error") 1), (4, Obj.dict_str 100 (cstring "app") 1),
      (5, Obj.dict_str 100 (cstring "/a") 1), (6, Obj.dict_str 100 (cstring "msg") 1),
      (7, Obj.dict_str 100 (cstring "en") 1), (8, Obj.dict_str 100 (cstring "7") 1),
      (9, Obj.dict_str 100 (cstring "x") 1), (10, Obj.dict_str 100 (cstring "y") 1),
      (11, Obj.dict_str 100 (cstring "e") 1), (12, Obj.dict_str 100 (cstring "ns") 1),
      (13, Obj.lyxml_elem 130), (14, Obj.dict_str 100 (cstring "z") 1),
      (20, Obj.ptr_array [9, 10]), (21, Obj.ptr_array [11]), (22, Obj.ptr_array [12]),
      (23, Obj.ptr_array [13]), (24, Obj.ptr_array [14]),
      (30, Obj.nc_err_array
        [{ type := 1, tag := 2, severity := 3, apptag := 4, path := 5, message := 6,
           message_lang := 7, sid := 8, attr := 20, attr_count := 2, elem := 21,
           elem_count := 1, ns := 22, ns_count := 1, other := 23, other_count := 1 },
         { type := 1, tag := 0, severity := 0, apptag := 0, path := 0, message := 0,
           message_lang := 0, sid := 0, attr := 24, attr_count := 1, elem := 0,
           elem_count := 0, ns := 0, ns_count := 0, other := 0, other_count := 0 }]),
      (31, Obj.nc_reply_error .NC_REPLY_ERROR 100 30 2),
      (40, Obj.lyd_node 41 42 400), (41, Obj.lyd_node 42 40 410), (42, Obj.lyd_node 0 41 420),
      (43, Obj.nc_reply_data .NC_REPLY_DATA 40), (44, Obj.nc_reply .NC_REPLY_OK),
      (45, Obj.lyxml_elem 450), (46, Obj.lyd_node 0 46 460),
      (47, Obj.nc_notif .NC_REPLY_NOTIF 45 46)],
    oom := [],
    log := [] }

/-! ## Heap lemmas -/

theorem lookup_le_top (m : List (Ptr × Obj)) (p : Ptr) (o : Obj)
    (hp : m.lookup p = some o) : p ≤ (m.map Prod.fst).foldr max 0 := by
  induction m with
  | nil => simp at hp
  | cons e m ih =>
    obtain ⟨q, x⟩ := e
    simp only [List.lookup_cons] at hp
    simp only [List.map_cons, List.foldr_cons]
    by_cases hq : p = q
    · subst hq
      exact le_max_left _ _
    · have hb : (p == q) = false := by simpa using hq
      rw [hb] at hp
      exact le_trans (ih hp) (le_max_right _ _)

theorem lookup_filter_ne (m : List (Ptr × Obj)) (p q : Ptr) :
    (m.filter (fun e => e.1 != p)).lookup q = if q = p then none else m.lookup q := by
  induction m with
  | nil => simp
  | cons e m ih =>
    obtain ⟨k, x⟩ := e
    by_cases hk : k = p
    · subst hk
      by_cases hq : q = k
      · subst hq
        simpa using ih
      · have hb : (q == k) = false := by simpa using hq
        simp [List.filter_cons, List.lookup_cons, hb, ih, hq]
    · have hkb : (k != p) = true := by simpa using hk
      by_cases hq : q = k
      · subst hq
        simp [List.filter_cons, hkb, List.lookup_cons, hk]
      · have hb : (q == k) = false := by simpa using hq
        simp [List.filter_cons, hkb, List.lookup_cons, hb, ih]

theorem State.lt_fresh {h : State} {p : Ptr} {o : Obj} (hp : h.get? p = some o) :
    p < h.fresh :=
  Nat.lt_succ_of_le (lookup_le_top h.mem p o hp)

theorem State.get?_fresh (h : State) : h.get? h.fresh = none := by
  cases hg : h.get? h.fresh with
  | none => rfl
  | some o => exact absurd (State.lt_fresh hg) (lt_irrefl _)

theorem State.fresh_ne_zero (h : State) : h.fresh ≠ 0 :=
  Nat.succ_ne_zero _

theorem State.ne_fresh {h : State} {p : Ptr} {o : Obj} (hp : h.get? p = some o) :
    p ≠ h.fresh :=
  Nat.ne_of_lt (State.lt_fresh hp)

@[simp] theorem State.get?_emit (h : State) (e : Event) (p : Ptr) :
    (h.emit e).get? p = h.get? p := rfl

@[simp] theorem State.get?_set (h : State) (p q : Ptr) (o : Obj) :
    (h.set p o).get? q = if q = p then some o else h.get? q := by
  by_cases hq : q = p
  · subst hq
    simp [State.set, State.get?, List.lookup_cons]
  · have hb : (q == p) = false := by simpa using hq
    simp [State.set, State.get?, List.lookup_cons, hb, lookup_filter_ne, hq]

@[simp] theorem State.get?_del (h : State) (p q : Ptr) :
    (h.del p).get? q = if q = p then none else h.get? q := by
  simp [State.del, State.get?, lookup_filter_ne]

@[simp] theorem State.log_emit (h : State) (e : Event) : (h.emit e).log = h.log ++ [e] := rfl

@[simp] theorem State.log_set (h : State) (p : Ptr) (o : Obj) : (h.set p o).log = h.log := rfl

@[simp] theorem State.log_del (h : State) (p : Ptr) : (h.del p).log = h.log := rfl

theorem State.alloc_ok {h : State} (hm : h.alloc_fails = false) (o : Obj) :
    h.alloc o = (h.fresh, { mem := (h.fresh, o) :: h.mem, oom := h.oom.tail, log := h.log }) := by
  simp [State.alloc, hm]

theorem State.alloc_fail {h : State} (hm : h.alloc_fails = true) (o : Obj) :
    h.alloc o = (0, { h with oom := h.oom.tail }) := by
  simp [State.alloc, hm]

theorem State.get?_cons (m : List (Ptr × Obj)) (oo : List Bool) (l : List Event) (a p : Ptr)
    (o : Obj) :
    (State.mk ((a, o) :: m) oo l).get? p = if p = a then some o else (State.mk m oo l).get? p := by
  by_cases hp : p = a
  · subst hp
    simp [State.get?, List.lookup_cons]
  · have hb : (p == a) = false := by simpa using hp
    simp [State.get?, List.lookup_cons, hb, hp]

/-- Every block live in `h` is live in `k` with the same content. -/
def State.within (h k : State) : Prop :=
  ∀ p o, h.get? p = some o → k.get? p = some o

theorem State.within_refl (h : State) : h.within h := fun _ _ hp => hp

theorem State.within_trans {h k l : State} (a : h.within k) (b : k.within l) : h.within l :=
  fun p o hp => b p o (a p o hp)

theorem State.within_alloc (h : State) (o : Obj) : h.within (h.alloc o).2 := by
  intro p x hp
  by_cases hm : h.alloc_fails = true
  · rw [State.alloc_fail hm]
    exact hp
  · have hm2 : h.alloc_fails = false := by simpa using hm
    rw [State.alloc_ok hm2]
    show (State.mk ((h.fresh, o) :: h.mem) h.oom.tail h.log).get? p = some x
    rw [State.get?_cons, if_neg (State.ne_fresh hp)]
    exact hp

theorem malloc_ok {h : State} (hm : h.alloc_fails = false) :
    malloc h = (h.fresh, h.after_malloc) := by
  simp [malloc, State.alloc_ok hm, State.fresh_ne_zero, State.emit, State.after_malloc]

theorem malloc_fail {h : State} (hm : h.alloc_fails = true) :
    malloc h = (0, { h with oom := h.oom.tail }) := by
  simp [malloc, State.alloc_fail hm]

theorem malloc_within (h : State) : h.within (malloc h).2 := by
  intro p x hp
  have ha := State.within_alloc h Obj.uninit p x hp
  unfold malloc
  by_cases h0 : (h.alloc Obj.uninit).1 = 0
  · simpa [h0] using ha
  · simpa [h0] using ha

theorem strdup_some {h : State} {s : Ptr} {bytes : List Nat} (hs : s ≠ 0)
    (hp : h.get? s = some (Obj.cstr bytes)) :
    ∃ r, strdup s h = some r ∧ h.within r.2 := by
  have ha := State.within_alloc h (Obj.cstr bytes)
  by_cases h0 : (h.alloc (Obj.cstr bytes)).1 = 0
  · exact ⟨h.alloc (Obj.cstr bytes), by simp [strdup, hs, hp, h0], ha⟩
  · refine ⟨((h.alloc (Obj.cstr bytes)).1,
      (h.alloc (Obj.cstr bytes)).2.emit (Event.strdup s (h.alloc (Obj.cstr bytes)).1)),
      by simp [strdup, hs, hp, h0], ?_⟩
    intro p x hx
    simpa using ha p x hx

/-- The duplication step of the constructors on an optional string parameter: the
string is duplicated, or the pointer is kept, and in both cases the step is defined and
keeps every live block. -/
theorem dup_step_some {h : State} {s : Ptr} (c : Prop) [Decidable c]
    (hs : s ≠ 0 → ∃ bytes, h.get? s = some (Obj.cstr bytes)) :
    ∃ r, (if s ≠ 0 ∧ c then strdup s h else some (s, h)) = some r ∧ h.within r.2 := by
  by_cases hc : s ≠ 0 ∧ c
  · obtain ⟨bytes, hb⟩ := hs hc.1
    obtain ⟨r, hr, hw⟩ := strdup_some hc.1 hb
    exact ⟨r, by simp [hc, hr], hw⟩
  · exact ⟨(s, h), by simp [hc], State.within_refl h⟩


/-! ## Shape checks -/

theorem State.get?_after_malloc (h : State) (q : Ptr) :
    h.after_malloc.get? q = if q = h.fresh then some Obj.uninit else h.get? q := by
  unfold State.after_malloc
  rw [State.get?_cons]
  rfl

@[simp] theorem State.log_after_malloc (h : State) :
    h.after_malloc.log = h.log ++ [Event.malloc h.fresh] := rfl

theorem is_string_with_iff (shape : List Nat → Bool) (s : Ptr) (h : State) :
    is_string_with shape s h = true ↔
      s ≠ 0 ∧ ∃ bytes, h.get? s = some (Obj.cstr bytes) ∧ shape bytes = true := by
  unfold is_string_with
  cases hg : h.get? s with
  | none => simp
  | some o => cases o <;> simp

theorem is_single_root_iff (data : Ptr) (h : State) :
    is_single_root data h = true ↔
      data ≠ 0 ∧ ∃ content, h.get? data = some (Obj.lyd_node 0 data content) := by
  unfold is_single_root
  cases hg : h.get? data with
  | none => simp
  | some o => cases o <;> simp

theorem filter_check_iff (bytes : List Nat) :
    (bytes.headD 0 ≠ 60 ∧ bytes.headD 0 ≠ 47 ∧ isalpha (bytes.headD 0) = false) ↔
      begins_xml_xpath_or_letter bytes = false := by
  cases bytes with
  | nil => simp [begins_xml_xpath_or_letter, isalpha]
  | cons c rest =>
    simp only [List.headD_cons, begins_xml_xpath_or_letter, isalpha]
    simp only [Bool.or_eq_false_iff, beq_eq_false_iff_ne, ne_eq, Bool.or_assoc]

theorem content_check_iff (bytes : List Nat) :
    (bytes.headD 0 ≠ 60 ∧ isalpha (bytes.headD 0) = false) ↔
      begins_xml_or_letter bytes = false := by
  cases bytes with
  | nil => simp [begins_xml_or_letter, isalpha]
  | cons c rest =>
    simp only [List.headD_cons, begins_xml_or_letter, isalpha]
    simp only [Bool.or_eq_false_iff, beq_eq_false_iff_ne, ne_eq, Bool.or_assoc]

theorem load_char0_cstr {h : State} {s : Ptr} {bytes : List Nat} (hs : s ≠ 0)
    (hp : h.get? s = some (Obj.cstr bytes)) : load_char0 s h = some (bytes.headD 0) := by
  simp [load_char0, hs, hp]

theorem src_rejected_null (h : State) : src_rejected 0 h = some false := by
  simp [src_rejected]

theorem src_rejected_cstr {h : State} {s : Ptr} {bytes : List Nat} (hs : s ≠ 0)
    (hp : h.get? s = some (Obj.cstr bytes)) :
    src_rejected s h = some (!begins_xml_or_letter bytes) := by
  rw [src_rejected, if_neg hs, load_char0_cstr hs hp]
  cases bytes with
  | nil => simp [begins_xml_or_letter, isalpha]
  | cons c rest =>
    simp only [List.headD_cons, begins_xml_or_letter, isalpha, Option.some_bind]
    simp only [Bool.not_or, Bool.and_assoc, ne_eq, decide_not, Bool.or_assoc]
    rfl

theorem src_rejected_accepted {h : State} {s : Ptr}
    (ha : (s == 0 || is_string_with begins_xml_or_letter s h) = true) :
    src_rejected s h = some false := by
  by_cases hs : s = 0
  · subst hs
    exact src_rejected_null h
  · have hb : is_string_with begins_xml_or_letter s h = true := by simpa [hs] using ha
    obtain ⟨-, bytes, hg, hok⟩ := (is_string_with_iff _ _ _).1 hb
    rw [src_rejected_cstr hs hg, hok]
    rfl

/-! ## The constructors under the two policies that store the pointer as given -/

theorem Call.run_as_given (c : Call) (p : NC_RPC_PARAMTYPE) (h : State)
    (hp : p ≠ .NC_RPC_PARAMTYPE_DUP_AND_FREE) (ha : c.accepted h = true)
    (hm : h.alloc_fails = false) :
    c.run p h = some (h.fresh, h.after_malloc.set h.fresh
      (c.as_given (if p = .NC_RPC_PARAMTYPE_CONST then 0 else 1))) := by
  cases c with
  | generic data =>
    obtain ⟨h0, content, hg⟩ := (is_single_root_iff _ _).1 ha
    simp [Call.run, Call.as_given, nc_rpc_generic, h0, hg, malloc_ok hm, State.fresh_ne_zero, hp]
  | generic_xml xml_str =>
    simp [Call.run, Call.as_given, nc_rpc_generic_xml, malloc_ok hm, State.fresh_ne_zero, hp]
  | getconfig source filter =>
    obtain ⟨h0, bytes, hg, hok⟩ := (is_string_with_iff _ _ _).1 ha
    have hc : ¬ (bytes.headD 0 ≠ 60 ∧ bytes.headD 0 ≠ 47 ∧ isalpha (bytes.headD 0) = false) :=
      fun hx => by simp [(filter_check_iff bytes).1 hx] at hok
    simp only [Call.run, Call.as_given, nc_rpc_getconfig, load_char0_cstr h0 hg,
      Option.some_bind]
    rw [if_neg hc]
    simp [malloc_ok hm, State.fresh_ne_zero, hp]
  | edit target default_op test_opt error_opt edit_content =>
    obtain ⟨h0, bytes, hg, hok⟩ := (is_string_with_iff _ _ _).1 ha
    have hc : ¬ (bytes.headD 0 ≠ 60 ∧ isalpha (bytes.headD 0) = false) :=
      fun hx => by simp [(content_check_iff bytes).1 hx] at hok
    simp only [Call.run, Call.as_given, nc_rpc_edit, load_char0_cstr h0 hg,
      Option.some_bind]
    rw [if_neg hc]
    simp [malloc_ok hm, State.fresh_ne_zero, hp]
  | copy target url_trg source url_or_config_src =>
    simp [Call.run, Call.as_given, nc_rpc_copy, src_rejected_accepted ha, malloc_ok hm,
      State.fresh_ne_zero, hp]
  | delete target url =>
    simp [Call.run, Call.as_given, nc_rpc_delete, malloc_ok hm, State.fresh_ne_zero, hp]
  | get filter =>
    obtain ⟨h0, bytes, hg, hok⟩ := (is_string_with_iff _ _ _).1 ha
    have hc : ¬ (bytes.headD 0 ≠ 60 ∧ bytes.headD 0 ≠ 47 ∧ isalpha (bytes.headD 0) = false) :=
      fun hx => by simp [(filter_check_iff bytes).1 hx] at hok
    simp only [Call.run, Call.as_given, nc_rpc_get, load_char0_cstr h0 hg,
      Option.some_bind]
    rw [if_neg hc]
    simp [malloc_ok hm, State.fresh_ne_zero, hp]
  | commit confirmed confirm_timeout persist persist_id =>
    simp [Call.run, Call.as_given, nc_rpc_commit, malloc_ok hm, State.fresh_ne_zero, hp]
  | cancel persist_id =>
    simp [Call.run, Call.as_given, nc_rpc_cancel, malloc_ok hm, State.fresh_ne_zero, hp]
  | validate source url_or_config =>
    simp [Call.run, Call.as_given, nc_rpc_validate, src_rejected_accepted ha, malloc_ok hm,
      State.fresh_ne_zero, hp]
  | getschema identifier version format =>
    simp [Call.run, Call.as_given, nc_rpc_getschema, malloc_ok hm, State.fresh_ne_zero, hp]
  | subscribe stream_name filter start_time stop_time =>
    obtain ⟨h0, bytes, hg, hok⟩ := (is_string_with_iff _ _ _).1 ha
    have hc : ¬ (bytes.headD 0 ≠ 60 ∧ bytes.headD 0 ≠ 47 ∧ isalpha (bytes.headD 0) = false) :=
      fun hx => by simp [(filter_check_iff bytes).1 hx] at hok
    simp only [Call.run, Call.as_given, nc_rpc_subscribe, load_char0_cstr h0 hg,
      Option.some_bind]
    rw [if_neg hc]
    simp [malloc_ok hm, State.fresh_ne_zero, hp]

theorem valid_within {h k : State} (hw : h.within k) {s : Ptr}
    (hs : s ≠ 0 → ∃ bytes, h.get? s = some (Obj.cstr bytes)) :
    s ≠ 0 → ∃ bytes, k.get? s = some (Obj.cstr bytes) := by
  intro h0
  obtain ⟨b, hb⟩ := hs h0
  exact ⟨b, hw _ _ hb⟩

/-! ## Duplication steps -/

theorem State.within_after_malloc (h : State) : h.within h.after_malloc := by
  intro p o hp
  rw [State.get?_after_malloc, if_neg (State.ne_fresh hp)]
  exact hp

theorem null_or_string_iff (s : Ptr) (h : State) :
    null_or_string s h = true ↔ (s ≠ 0 → ∃ bytes, h.get? s = some (Obj.cstr bytes)) := by
  unfold null_or_string
  by_cases hs : s = 0
  · simp [hs]
  · simp [hs, is_string_with_iff]

theorem is_string_iff (s : Ptr) (h : State) :
    is_string_with (fun _ => true) s h = true ↔
      s ≠ 0 ∧ ∃ bytes, h.get? s = some (Obj.cstr bytes) := by
  simp [is_string_with_iff]

/-- An optional string parameter: the step `if (s && paramtype == c) strdup(s) else s`
is defined and keeps every block of the initial state. -/
theorem dup_opt_some {h0 h : State} (hw : h0.within h) {s : Ptr} (c : Prop) [Decidable c]
    (hs : null_or_string s h0 = true) :
    ∃ r, (if s ≠ 0 ∧ c then strdup s h else some (s, h)) = some r ∧ h0.within r.2 := by
  have hv := (null_or_string_iff s h0).1 hs
  obtain ⟨r, hr, hwr⟩ := dup_step_some (h := h) c (valid_within hw hv)
  exact ⟨r, hr, State.within_trans hw hwr⟩

/-- A required string parameter: the step `if (paramtype == c) strdup(s) else s` is
defined and keeps every block of the initial state. -/
theorem dup_req_some {h0 h : State} (hw : h0.within h) {s : Ptr} (c : Prop) [Decidable c]
    (hs : s ≠ 0 ∧ ∃ bytes, h0.get? s = some (Obj.cstr bytes)) :
    ∃ r, (if c then strdup s h else some (s, h)) = some r ∧ h0.within r.2 := by
  obtain ⟨hs0, bytes, hb⟩ := hs
  by_cases hc : c
  · obtain ⟨r, hr, hwr⟩ := strdup_some hs0 (hw _ _ hb)
    exact ⟨r, by simp [hc, hr], State.within_trans hw hwr⟩
  · exact ⟨(s, h), by simp [hc], hw⟩

theorem lyd_dup_some {h : State} {node next prev content : Ptr} (hs : node ≠ 0)
    (hp : h.get? node = some (Obj.lyd_node next prev content)) :
    ∃ r, lyd_dup node h = some r := by
  simp [lyd_dup, hs, hp]

/-! ## Outcome of a constructor call -/

theorem Call.run_rejects (c : Call) (p : NC_RPC_PARAMTYPE) (h : State)
    (hr : c.rejected h = true) : c.run p h = some (0, h) := by
  cases c with
  | generic data =>
    simp only [Call.rejected, Bool.and_eq_true, bne_iff_ne, ne_eq] at hr
    obtain ⟨h0, hr⟩ := hr
    cases hg : h.get? data with
    | none => simp [hg] at hr
    | some o =>
      cases o <;> simp [hg] at hr
      case lyd_node next prev content =>
        have hc : next ≠ 0 ∨ prev ≠ data := hr
        simp only [Call.run, nc_rpc_generic, if_neg h0, hg, if_pos hc]
  | getconfig source filter =>
    obtain ⟨h0, bytes, hg, hbad⟩ := (is_string_with_iff _ _ _).1 hr
    have hc := (filter_check_iff bytes).2 (by simpa using hbad)
    simp only [Call.run, nc_rpc_getconfig, load_char0_cstr h0 hg, Option.some_bind, if_pos hc]
  | get filter =>
    obtain ⟨h0, bytes, hg, hbad⟩ := (is_string_with_iff _ _ _).1 hr
    have hc := (filter_check_iff bytes).2 (by simpa using hbad)
    simp only [Call.run, nc_rpc_get, load_char0_cstr h0 hg, Option.some_bind, if_pos hc]
  | subscribe stream_name filter start_time stop_time =>
    obtain ⟨h0, bytes, hg, hbad⟩ := (is_string_with_iff _ _ _).1 hr
    have hc := (filter_check_iff bytes).2 (by simpa using hbad)
    simp only [Call.run, nc_rpc_subscribe, load_char0_cstr h0 hg, Option.some_bind, if_pos hc]
  | edit target default_op test_opt error_opt edit_content =>
    obtain ⟨h0, bytes, hg, hbad⟩ := (is_string_with_iff _ _ _).1 hr
    have hc := (content_check_iff bytes).2 (by simpa using hbad)
    simp only [Call.run, nc_rpc_edit, load_char0_cstr h0 hg, Option.some_bind, if_pos hc]
  | copy target url_trg source url_or_config_src =>
    obtain ⟨h0, bytes, hg, hbad⟩ := (is_string_with_iff _ _ _).1 hr
    simp [Call.run, nc_rpc_copy, src_rejected_cstr h0 hg, hbad]
  | validate source url_or_config =>
    obtain ⟨h0, bytes, hg, hbad⟩ := (is_string_with_iff _ _ _).1 hr
    simp [Call.run, nc_rpc_validate, src_rejected_cstr h0 hg, hbad]
  | generic_xml _ => simp [Call.rejected] at hr
  | delete _ _ => simp [Call.rejected] at hr
  | commit _ _ _ _ => simp [Call.rejected] at hr
  | cancel _ => simp [Call.rejected] at hr
  | getschema _ _ _ => simp [Call.rejected] at hr

theorem Call.run_returns (c : Call) (p : NC_RPC_PARAMTYPE) (h : State)
    (ha : c.accepted h = true) (hv : c.strings_valid h = true) (hm : h.alloc_fails = false) :
    ∃ h1, c.run p h = some (h.fresh, h1) := by
  have hw := State.within_after_malloc h
  cases c with
  | generic data =>
    obtain ⟨h0, content, hg⟩ := (is_single_root_iff _ _).1 ha
    obtain ⟨r, hr⟩ := lyd_dup_some h0 (hw _ _ hg)
    by_cases hp : p = .NC_RPC_PARAMTYPE_DUP_AND_FREE
    · simp [Call.run, nc_rpc_generic, h0, hg, malloc_ok hm, State.fresh_ne_zero, hr, hp]
    · simp [Call.run, nc_rpc_generic, h0, hg, malloc_ok hm, State.fresh_ne_zero, hp]
  | generic_xml xml_str =>
    obtain ⟨r, hr, -⟩ := dup_req_some hw (p = .NC_RPC_PARAMTYPE_DUP_AND_FREE)
      ((is_string_iff _ _).1 hv)
    simp only [Call.run, nc_rpc_generic_xml, malloc_ok hm, State.fresh_ne_zero, if_false, hr,
      Option.some_bind]
    exact ⟨_, rfl⟩
  | getconfig source filter =>
    obtain ⟨h0, bytes, hg, hok⟩ := (is_string_with_iff _ _ _).1 ha
    have hc : ¬ (bytes.headD 0 ≠ 60 ∧ bytes.headD 0 ≠ 47 ∧ isalpha (bytes.headD 0) = false) :=
      fun hx => by simp [(filter_check_iff bytes).1 hx] at hok
    obtain ⟨r, hr, -⟩ := dup_opt_some hw (s := filter) (p = .NC_RPC_PARAMTYPE_DUP_AND_FREE)
      ((null_or_string_iff _ _).2 (fun _ => ⟨bytes, hg⟩))
    simp only [Call.run, nc_rpc_getconfig, load_char0_cstr h0 hg, Option.some_bind]
    rw [if_neg hc]
    simp only [malloc_ok hm, State.fresh_ne_zero, if_false, hr, Option.some_bind]
    exact ⟨_, rfl⟩
  | edit target default_op test_opt error_opt edit_content =>
    obtain ⟨h0, bytes, hg, hok⟩ := (is_string_with_iff _ _ _).1 ha
    have hc : ¬ (bytes.headD 0 ≠ 60 ∧ isalpha (bytes.headD 0) = false) :=
      fun hx => by simp [(content_check_iff bytes).1 hx] at hok
    obtain ⟨r, hr, -⟩ := dup_req_some hw (s := edit_content)
      (p = .NC_RPC_PARAMTYPE_DUP_AND_FREE) ⟨h0, bytes, hg⟩
    simp only [Call.run, nc_rpc_edit, load_char0_cstr h0 hg, Option.some_bind]
    rw [if_neg hc]
    simp only [malloc_ok hm, State.fresh_ne_zero, if_false, hr, Option.some_bind]
    exact ⟨_, rfl⟩
  | copy target url_trg source url_or_config_src =>
    have hsrc : null_or_string url_or_config_src h = true := by
      by_cases hs : url_or_config_src = 0
      · simp [null_or_string, hs]
      · have hb : is_string_with begins_xml_or_letter url_or_config_src h = true := by
          simpa [Call.accepted, hs] using ha
        obtain ⟨-, bytes, hg, -⟩ := (is_string_with_iff _ _ _).1 hb
        exact (null_or_string_iff _ _).2 (fun _ => ⟨bytes, hg⟩)
    obtain ⟨r1, e1, w1⟩ := dup_opt_some hw (s := url_trg)
      (p = .NC_RPC_PARAMTYPE_DUP_AND_FREE) hv
    obtain ⟨r2, e2, -⟩ := dup_opt_some w1 (s := url_or_config_src)
      (p = .NC_RPC_PARAMTYPE_DUP_AND_FREE) hsrc
    simp only [Call.run, nc_rpc_copy, src_rejected_accepted ha, Option.some_bind,
      Bool.false_eq_true, if_false, malloc_ok hm, State.fresh_ne_zero, e1, e2]
    exact ⟨_, rfl⟩
  | delete target url =>
    obtain ⟨r, hr, -⟩ := dup_opt_some hw (s := url) (p = .NC_RPC_PARAMTYPE_DUP_AND_FREE) hv
    simp only [Call.run, nc_rpc_delete, malloc_ok hm, State.fresh_ne_zero, if_false, hr,
      Option.some_bind]
    exact ⟨_, rfl⟩
  | get filter =>
    obtain ⟨h0, bytes, hg, hok⟩ := (is_string_with_iff _ _ _).1 ha
    have hc : ¬ (bytes.headD 0 ≠ 60 ∧ bytes.headD 0 ≠ 47 ∧ isalpha (bytes.headD 0) = false) :=
      fun hx => by simp [(filter_check_iff bytes).1 hx] at hok
    obtain ⟨r, hr, -⟩ := dup_opt_some hw (s := filter) (p = .NC_RPC_PARAMTYPE_DUP_AND_FREE)
      ((null_or_string_iff _ _).2 (fun _ => ⟨bytes, hg⟩))
    simp only [Call.run, nc_rpc_get, load_char0_cstr h0 hg, Option.some_bind]
    rw [if_neg hc]
    simp only [malloc_ok hm, State.fresh_ne_zero, if_false, hr, Option.some_bind]
    exact ⟨_, rfl⟩
  | commit confirmed confirm_timeout persist persist_id =>
    simp only [Call.strings_valid, Bool.and_eq_true] at hv
    obtain ⟨r1, e1, w1⟩ := dup_opt_some hw (s := persist)
      (p = .NC_RPC_PARAMTYPE_DUP_AND_FREE) hv.1
    obtain ⟨r2, e2, -⟩ := dup_opt_some w1 (s := persist_id)
      (p = .NC_RPC_PARAMTYPE_DUP_AND_FREE) hv.2
    simp only [Call.run, nc_rpc_commit, malloc_ok hm, State.fresh_ne_zero, if_false, e1, e2,
      Option.some_bind]
    exact ⟨_, rfl⟩
  | cancel persist_id =>
    obtain ⟨r, hr, -⟩ := dup_opt_some hw (s := persist_id)
      (p = .NC_RPC_PARAMTYPE_DUP_AND_FREE) hv
    simp only [Call.run, nc_rpc_cancel, malloc_ok hm, State.fresh_ne_zero, if_false, hr,
      Option.some_bind]
    exact ⟨_, rfl⟩
  | validate source url_or_config =>
    have hsrc : null_or_string url_or_config h = true := by
      by_cases hs : url_or_config = 0
      · simp [null_or_string, hs]
      · have hb : is_string_with begins_xml_or_letter url_or_config h = true := by
          simpa [Call.accepted, hs] using ha
        obtain ⟨-, bytes, hg, -⟩ := (is_string_with_iff _ _ _).1 hb
        exact (null_or_string_iff _ _).2 (fun _ => ⟨bytes, hg⟩)
    obtain ⟨r, hr, -⟩ := dup_opt_some hw (s := url_or_config)
      (p = .NC_RPC_PARAMTYPE_DUP_AND_FREE) hsrc
    simp only [Call.run, nc_rpc_validate, src_rejected_accepted ha, Option.some_bind,
      Bool.false_eq_true, if_false, malloc_ok hm, State.fresh_ne_zero, hr]
    exact ⟨_, rfl⟩
  | getschema identifier version format =>
    simp only [Call.strings_valid, Bool.and_eq_true] at hv
    obtain ⟨r1, e1, w1⟩ := dup_req_some hw (s := identifier)
      (p = .NC_RPC_PARAMTYPE_DUP_AND_FREE) ((is_string_iff _ _).1 hv.1.1)
    obtain ⟨r2, e2, w2⟩ := dup_opt_some w1 (s := version)
      (p = .NC_RPC_PARAMTYPE_DUP_AND_FREE) hv.1.2
    obtain ⟨r3, e3, -⟩ := dup_opt_some w2 (s := format)
      (p = .NC_RPC_PARAMTYPE_DUP_AND_FREE) hv.2
    simp only [Call.run, nc_rpc_getschema, malloc_ok hm, State.fresh_ne_zero, if_false, e1, e2,
      e3, Option.some_bind]
    exact ⟨_, rfl⟩
  | subscribe stream_name filter start_time stop_time =>
    obtain ⟨h0, bytes, hg, hok⟩ := (is_string_with_iff _ _ _).1 ha
    have hc : ¬ (bytes.headD 0 ≠ 60 ∧ bytes.headD 0 ≠ 47 ∧ isalpha (bytes.headD 0) = false) :=
      fun hx => by simp [(filter_check_iff bytes).1 hx] at hok
    simp only [Call.strings_valid, Bool.and_eq_true] at hv
    obtain ⟨r1, e1, w1⟩ := dup_opt_some hw (s := stream_name)
      (p = .NC_RPC_PARAMTYPE_DUP_AND_FREE) hv.1.1
    obtain ⟨r2, e2, w2⟩ := dup_opt_some w1 (s := filter)
      (p = .NC_RPC_PARAMTYPE_DUP_AND_FREE)
      ((null_or_string_iff _ _).2 (fun _ => ⟨bytes, hg⟩))
    obtain ⟨r3, e3, w3⟩ := dup_opt_some w2 (s := start_time)
      (p = .NC_RPC_PARAMTYPE_DUP_AND_FREE) hv.1.2
    obtain ⟨r4, e4, -⟩ := dup_opt_some w3 (s := stop_time)
      (p = .NC_RPC_PARAMTYPE_DUP_AND_FREE) hv.2
    simp only [Call.run, nc_rpc_subscribe, load_char0_cstr h0 hg, Option.some_bind]
    rw [if_neg hc]
    simp only [malloc_ok hm, State.fresh_ne_zero, if_false, e1, e2, e3, e4, Option.some_bind]
    exact ⟨_, rfl⟩

/-! ## Claims on the shape checks -/

/-- C3: for a non-null filter string (and otherwise valid arguments, with memory for the
request object), under every ownership policy, `nc_rpc_get`, `nc_rpc_getconfig` and
`nc_rpc_subscribe` return a request exactly when the filter begins with `<`, `/` or an
ASCII letter, and return `NULL` otherwise. -/
theorem filter_shape_decides_request (h : State) (filter : Ptr) (bytes : List Nat)
    (p : NC_RPC_PARAMTYPE) (source : NC_DATASTORE) (stream_name start_time stop_time : Ptr)
    (hnn : filter ≠ 0) (hf : h.get? filter = some (Obj.cstr bytes))
    (hm : h.alloc_fails = false)
    (hs : (null_or_string stream_name h && null_or_string start_time h &&
      null_or_string stop_time h) = true) :
    (∃ r h1, nc_rpc_get filter p h = some (r, h1) ∧
      (r ≠ 0 ↔ begins_xml_xpath_or_letter bytes = true)) ∧
    (∃ r h1, nc_rpc_getconfig source filter p h = some (r, h1) ∧
      (r ≠ 0 ↔ begins_xml_xpath_or_letter bytes = true)) ∧
    (∃ r h1, nc_rpc_subscribe stream_name filter start_time stop_time p h = some (r, h1) ∧
      (r ≠ 0 ↔ begins_xml_xpath_or_letter bytes = true)) := by
  by_cases hok : begins_xml_xpath_or_letter bytes = true
  · have ha : is_string_with begins_xml_xpath_or_letter filter h = true :=
      (is_string_with_iff _ _ _).2 ⟨hnn, bytes, hf, hok⟩
    obtain ⟨h1, e1⟩ := Call.run_returns (.get filter) p h ha rfl hm
    obtain ⟨h2, e2⟩ := Call.run_returns (.getconfig source filter) p h ha rfl hm
    obtain ⟨h3, e3⟩ :=
      Call.run_returns (.subscribe stream_name filter start_time stop_time) p h ha hs hm
    exact ⟨⟨_, _, e1, by simp [hok, State.fresh_ne_zero]⟩,
      ⟨_, _, e2, by simp [hok, State.fresh_ne_zero]⟩,
      ⟨_, _, e3, by simp [hok, State.fresh_ne_zero]⟩⟩
  · have hr : is_string_with (fun b => !begins_xml_xpath_or_letter b) filter h = true :=
      (is_string_with_iff _ _ _).2 ⟨hnn, bytes, hf, by simpa using hok⟩
    exact ⟨⟨0, h, Call.run_rejects (.get filter) p h hr, by simp [hok]⟩,
      ⟨0, h, Call.run_rejects (.getconfig source filter) p h hr, by simp [hok]⟩,
      ⟨0, h, Call.run_rejects (.subscribe stream_name filter start_time stop_time) p h hr,
        by simp [hok]⟩⟩

/-- C4 (as the code behaves): with a `NULL` filter, `nc_rpc_get`, `nc_rpc_getconfig` and
`nc_rpc_subscribe` read `filter[0]` through the null pointer before any null test, under
every policy and in every state: the call is undefined and no request is returned. -/
theorem null_filter_is_dereferenced (h : State) (p : NC_RPC_PARAMTYPE)
    (source : NC_DATASTORE) (stream_name start_time stop_time : Ptr) :
    load_char0 0 h = none ∧
    nc_rpc_get 0 p h = none ∧
    nc_rpc_getconfig source 0 p h = none ∧
    nc_rpc_subscribe stream_name 0 start_time stop_time p h = none := by
  simp [nc_rpc_get, nc_rpc_getconfig, nc_rpc_subscribe, load_char0]

/-- C8: for every data node, with memory for the request object and under every
ownership policy, `nc_rpc_generic` returns a request exactly when the node has no next
sibling and its previous-sibling link points to the node itself; otherwise it returns
`NULL`. -/
theorem generic_requires_single_root (h : State) (data next prev content : Ptr)
    (p : NC_RPC_PARAMTYPE) (hnn : data ≠ 0)
    (hd : h.get? data = some (Obj.lyd_node next prev content))
    (hm : h.alloc_fails = false) :
    ∃ r h1, nc_rpc_generic data p h = some (r, h1) ∧ (r ≠ 0 ↔ (next = 0 ∧ prev = data)) := by
  by_cases hok : next = 0 ∧ prev = data
  · have ha : is_single_root data h = true := by
      obtain ⟨hn, hp⟩ := hok
      subst hn
      subst hp
      exact (is_single_root_iff _ _).2 ⟨hnn, content, hd⟩
    obtain ⟨h1, e1⟩ := Call.run_returns (.generic data) p h ha rfl hm
    exact ⟨_, _, e1, by simp [hok, State.fresh_ne_zero]⟩
  · have hr : (Call.generic data).rejected h = true := by
      have hc : next ≠ 0 ∨ prev ≠ data := by
        by_cases hn : next = 0
        · exact Or.inr (fun hp => hok ⟨hn, hp⟩)
        · exact Or.inl hn
      simpa [Call.rejected, hnn, hd] using hc
    exact ⟨0, h, Call.run_rejects (.generic data) p h hr, by simp [hok]⟩

/-- C9: for every edit-content string, every datastore and option values and every
ownership policy (with memory for the request object), `nc_rpc_edit` returns a request
exactly when the content begins with `<` or an ASCII letter and returns `NULL` otherwise;
the request returned has kind `NC_RPC_EDIT` and stores the target, default operation,
test option and error option exactly as given. -/
theorem edit_content_shape_decides_request (h : State) (target : NC_DATASTORE)
    (default_op : NC_RPC_EDIT_DFLTOP) (test_opt : NC_RPC_EDIT_TESTOPT)
    (error_opt : NC_RPC_EDIT_ERROPT) (edit_content : Ptr) (bytes : List Nat)
    (p : NC_RPC_PARAMTYPE) (hnn : edit_content ≠ 0)
    (hg : h.get? edit_content = some (Obj.cstr bytes)) (hm : h.alloc_fails = false) :
    ∃ r h1, nc_rpc_edit target default_op test_opt error_opt edit_content p h = some (r, h1) ∧
      (r ≠ 0 ↔ begins_xml_or_letter bytes = true) ∧
      (r ≠ 0 → ∃ cont fl, h1.get? r =
        some (Obj.nc_rpc_edit .NC_RPC_EDIT target default_op test_opt error_opt cont fl)) := by
  by_cases hok : begins_xml_or_letter bytes = true
  · have hc : ¬ (bytes.headD 0 ≠ 60 ∧ isalpha (bytes.headD 0) = false) :=
      fun hx => by simp [(content_check_iff bytes).1 hx] at hok
    obtain ⟨e, he, -⟩ := dup_req_some (State.within_after_malloc h) (s := edit_content)
      (p = .NC_RPC_PARAMTYPE_DUP_AND_FREE) ⟨hnn, bytes, hg⟩
    refine ⟨h.fresh, e.2.set h.fresh (Obj.nc_rpc_edit .NC_RPC_EDIT target default_op test_opt
      error_opt e.1 (if p = .NC_RPC_PARAMTYPE_CONST then 0 else 1)), ?_, ?_, ?_⟩
    · simp only [nc_rpc_edit, load_char0_cstr hnn hg, Option.some_bind]
      rw [if_neg hc]
      simp only [malloc_ok hm, State.fresh_ne_zero, if_false, he, Option.some_bind]
    · simp [hok, State.fresh_ne_zero]
    · intro _
      exact ⟨e.1, if p = .NC_RPC_PARAMTYPE_CONST then 0 else 1, by simp⟩
  · have hr : (Call.edit target default_op test_opt error_opt edit_content).rejected h = true :=
      (is_string_with_iff _ _ _).2 ⟨hnn, bytes, hg, by simpa using hok⟩
    exact ⟨0, h, Call.run_rejects _ p h hr, by simp [hok], by simp⟩

/-- C10: the source of `nc_rpc_copy` and of `nc_rpc_validate` is optional. With a `NULL`
source the call returns a request whose source field is `NULL`; with a source string it
returns a request exactly when the string begins with `<` or an ASCII letter. The
target URL of `nc_rpc_copy` and the URL of `nc_rpc_delete` may be `NULL` or any string:
their content does not enter the outcome. (Memory for the request object is assumed.) -/
theorem copy_validate_source_optional (h : State) (target source : NC_DATASTORE)
    (url_trg src url : Ptr) (p : NC_RPC_PARAMTYPE) (hm : h.alloc_fails = false)
    (ht : null_or_string url_trg h = true) (hs : null_or_string src h = true)
    (hu : null_or_string url h = true) :
    (∃ r h1, nc_rpc_copy target url_trg source src p h = some (r, h1) ∧
      (r ≠ 0 ↔ (src = 0 ∨ is_string_with begins_xml_or_letter src h = true)) ∧
      (src = 0 → ∃ trg fl, h1.get? r =
        some (Obj.nc_rpc_copy .NC_RPC_COPY target trg source 0 fl))) ∧
    (∃ r h1, nc_rpc_validate source src p h = some (r, h1) ∧
      (r ≠ 0 ↔ (src = 0 ∨ is_string_with begins_xml_or_letter src h = true)) ∧
      (src = 0 → ∃ fl, h1.get? r = some (Obj.nc_rpc_validate .NC_RPC_VALIDATE source 0 fl))) ∧
    (∃ r h1, nc_rpc_delete target url p h = some (r, h1) ∧ r ≠ 0) := by
  have hw := State.within_after_malloc h
  refine ⟨?_, ?_, ?_⟩
  · by_cases hok : src = 0 ∨ is_string_with begins_xml_or_letter src h = true
    · have ha : (src == 0 || is_string_with begins_xml_or_letter src h) = true := by
        simpa using hok
      obtain ⟨r1, e1, w1⟩ := dup_opt_some hw (s := url_trg)
        (p = .NC_RPC_PARAMTYPE_DUP_AND_FREE) ht
      obtain ⟨r2, e2, -⟩ := dup_opt_some w1 (h := r1.2) (s := src)
        (p = .NC_RPC_PARAMTYPE_DUP_AND_FREE) hs
      refine ⟨h.fresh, r2.2.set h.fresh (Obj.nc_rpc_copy .NC_RPC_COPY target r1.1 source r2.1
        (if p = .NC_RPC_PARAMTYPE_CONST then 0 else 1)), ?_, ?_, ?_⟩
      · simp only [nc_rpc_copy, src_rejected_accepted ha, Option.some_bind,
          Bool.false_eq_true, if_false, malloc_ok hm, State.fresh_ne_zero, e1, e2]
      · simp [hok, State.fresh_ne_zero]
      · intro h0
        subst h0
        have hr2 : r2.1 = 0 := by
          simp at e2
          rw [← e2]
        exact ⟨r1.1, if p = .NC_RPC_PARAMTYPE_CONST then 0 else 1, by simp [hr2]⟩
    · have hne : src ≠ 0 := fun h0 => hok (Or.inl h0)
      obtain ⟨bytes, hb⟩ := (null_or_string_iff _ _).1 hs hne
      have hbad : begins_xml_or_letter bytes = false := by
        by_contra hx
        exact hok (Or.inr ((is_string_with_iff _ _ _).2 ⟨hne, bytes, hb, by simpa using hx⟩))
      have hr : (Call.copy target url_trg source src).rejected h = true :=
        (is_string_with_iff _ _ _).2 ⟨hne, bytes, hb, by simp [hbad]⟩
      exact ⟨0, h, Call.run_rejects _ p h hr, by simpa using hok, fun h0 => absurd h0 hne⟩
  · by_cases hok : src = 0 ∨ is_string_with begins_xml_or_letter src h = true
    · have ha : (src == 0 || is_string_with begins_xml_or_letter src h) = true := by
        simpa using hok
      obtain ⟨r2, e2, -⟩ := dup_opt_some hw (s := src)
        (p = .NC_RPC_PARAMTYPE_DUP_AND_FREE) hs
      refine ⟨h.fresh, r2.2.set h.fresh (Obj.nc_rpc_validate .NC_RPC_VALIDATE source r2.1
        (if p = .NC_RPC_PARAMTYPE_CONST then 0 else 1)), ?_, ?_, ?_⟩
      · simp only [nc_rpc_validate, src_rejected_accepted ha, Option.some_bind,
          Bool.false_eq_true, if_false, malloc_ok hm, State.fresh_ne_zero, e2]
      · simp [hok, State.fresh_ne_zero]
      · intro h0
        subst h0
        have hr2 : r2.1 = 0 := by
          simp at e2
          rw [← e2]
        exact ⟨if p = .NC_RPC_PARAMTYPE_CONST then 0 else 1, by simp [hr2]⟩
    · have hne : src ≠ 0 := fun h0 => hok (Or.inl h0)
      obtain ⟨bytes, hb⟩ := (null_or_string_iff _ _).1 hs hne
      have hbad : begins_xml_or_letter bytes = false := by
        by_contra hx
        exact hok (Or.inr ((is_string_with_iff _ _ _).2 ⟨hne, bytes, hb, by simpa using hx⟩))
      have hr : (Call.validate source src).rejected h = true :=
        (is_string_with_iff _ _ _).2 ⟨hne, bytes, hb, by simp [hbad]⟩
      exact ⟨0, h, Call.run_rejects _ p h hr, by simpa using hok, fun h0 => absurd h0 hne⟩
  · obtain ⟨h1, e1⟩ := Call.run_returns (.delete target url) p h rfl hu hm
    exact ⟨_, _, e1, State.fresh_ne_zero h⟩

/-! ## The request destructor -/

theorem nc_rpc_free_not_owned (c : Call) (s : State) (a : Ptr) (ha : a ≠ 0)
    (hg : s.get? a = some (c.as_given 0)) :
    nc_rpc_free a s = some ((s.del a).emit (Event.free a)) := by
  have hf : free a s = some ((s.del a).emit (Event.free a)) := by
    simp [free, ha, hg]
  unfold nc_rpc_free
  rw [if_neg ha, hg, Option.some_bind]
  cases c <;> simp only [Call.as_given, Obj.rpc_type, Option.some_bind, ne_eq,
    not_true_eq_false, if_false, hf]

theorem nc_rpc_free_owned (c : Call) (s : State) (a : Ptr) (ha : a ≠ 0)
    (hg : s.get? a = some (c.as_given 1)) :
    nc_rpc_free a s = (c.release_all c.released s).bind (free a) := by
  unfold nc_rpc_free
  rw [if_neg ha, hg, Option.some_bind]
  cases c <;> simp only [Call.as_given, Obj.rpc_type, Option.some_bind, ne_eq,
    one_ne_zero, not_false_eq_true, if_true, Call.release_all, Call.release, Call.released,
    Option.bind_assoc, Option.bind_some]

theorem Call.release_null (c : Call) (s : State) : c.release 0 s = some s := by
  cases c <;> simp [Call.release, free, lyd_free]

theorem Call.release_live (c : Call) (p : Ptr) (s : State) (hp : p ≠ 0)
    (hl : c.can_release p s = true) :
    c.release p s = some ((s.del p).emit (c.release_event p)) := by
  cases c with
  | generic data =>
    simp only [Call.can_release] at hl
    cases hg : s.get? p with
    | none => simp [hg] at hl
    | some o =>
      cases o <;> simp [hg] at hl
      simp [Call.release, lyd_free, hp, hg, Call.release_event]
  | _ =>
    simp only [Call.can_release, Option.isSome_iff_exists] at hl
    obtain ⟨o, ho⟩ := hl
    simp [Call.release, free, hp, ho, Call.release_event]

theorem Call.can_release_congr (c : Call) (p : Ptr) (s t : State) (hg : t.get? p = s.get? p) :
    c.can_release p t = c.can_release p s := by
  cases c <;> simp [Call.can_release, hg]

theorem Call.can_release_live (c : Call) (p : Ptr) (s : State)
    (hl : c.can_release p s = true) : ∃ o, s.get? p = some o := by
  cases hg : s.get? p with
  | some o => exact ⟨o, rfl⟩
  | none => cases c <;> simp [Call.can_release, hg] at hl

/-- Releasing a list of pointers in which the non-null ones are live and pairwise
distinct: every one of them is released, one log entry each, nothing else changes. -/
theorem Call.release_all_spec (c : Call) (ps : List Ptr) :
    ∀ s : State, (∀ p ∈ ps, p ≠ 0 → c.can_release p s = true) →
      (ps.filter (fun p => p != 0)).Nodup →
      ∃ s2, c.release_all ps s = some s2 ∧
        s2.log = s.log ++ (ps.filter (fun p => p != 0)).map c.release_event ∧
        ∀ q, s2.get? q = if q ∈ ps.filter (fun p => p != 0) then none else s.get? q := by
  induction ps with
  | nil =>
    intro s _ _
    exact ⟨s, rfl, by simp, by simp⟩
  | cons p ps ih =>
    intro s hl hnd
    by_cases hp : p = 0
    · subst hp
      have hnd2 : (ps.filter (fun p => p != 0)).Nodup := by simpa using hnd
      obtain ⟨s2, e, hlog, hget⟩ := ih s (fun q hq => hl q (List.mem_cons_of_mem _ hq)) hnd2
      refine ⟨s2, ?_, ?_, ?_⟩
      · simp [Call.release_all, Call.release_null, e]
      · simpa using hlog
      · intro q
        simpa using hget q
    · have hfil : (p :: ps).filter (fun p => p != 0) = p :: ps.filter (fun p => p != 0) := by
        simp [List.filter_cons, hp]
      rw [hfil, List.nodup_cons] at hnd
      obtain ⟨hnotin, hnd2⟩ := hnd
      have hrel := Call.release_live c p s hp (hl p (List.mem_cons_self _ _) hp)
      have hl2 : ∀ q ∈ ps, q ≠ 0 →
          c.can_release q ((s.del p).emit (c.release_event p)) = true := by
        intro q hq hq0
        have hqp : q ≠ p := by
          intro hqp
          subst hqp
          exact hnotin (List.mem_filter.2 ⟨hq, by simpa using hq0⟩)
        rw [Call.can_release_congr c q s _ (by simp [hqp])]
        exact hl q (List.mem_cons_of_mem _ hq) hq0
      obtain ⟨s2, e, hlog, hget⟩ := ih _ hl2 hnd2
      refine ⟨s2, ?_, ?_, ?_⟩
      · simp [Call.release_all, hrel, e]
      · rw [hlog, hfil]
        simp
      · intro q
        rw [hget q, hfil]
        by_cases hqp : q = p
        · subst hqp
          simp [hnotin]
        · simp [hqp]

theorem Call.release_event_injective (c : Call) : Function.Injective c.release_event := by
  intro p q hpq
  cases c <;> simpa [Call.release_event] using hpq

theorem Call.release_event_ne_free (c : Call) (p a : Ptr) (hpa : p ≠ a) :
    Event.free a ≠ c.release_event p := by
  cases c <;> simp [Call.release_event, Ne.symm hpa]

/-! ## Claims on the policies that store the pointer as given -/

/-- C7: for every constructor that takes an ownership policy, on arguments that pass its
shape check and with memory for the request object, the request built with
`NC_RPC_PARAMTYPE_CONST` stores the caller's values as given with the ownership flag
clear and leaves every other block as it was; `nc_rpc_free` on it performs one release,
that of the request object, and the heap is then as before the construction. -/
theorem const_reference_fields_never_released (c : Call) (h : State)
    (ha : c.accepted h = true) (hm : h.alloc_fails = false) :
    ∃ h1 h2, c.run .NC_RPC_PARAMTYPE_CONST h = some (h.fresh, h1) ∧ h.fresh ≠ 0 ∧
      h1.get? h.fresh = some (c.as_given 0) ∧
      (∀ q, q ≠ h.fresh → h1.get? q = h.get? q) ∧
      nc_rpc_free h.fresh h1 = some h2 ∧
      h2.log = h1.log ++ [Event.free h.fresh] ∧
      ∀ q, h2.get? q = h.get? q := by
  have hrun := Call.run_as_given c .NC_RPC_PARAMTYPE_CONST h (by decide) ha hm
  simp only [if_true] at hrun
  have hg : (h.after_malloc.set h.fresh (c.as_given 0)).get? h.fresh = some (c.as_given 0) := by
    simp
  refine ⟨_, _, hrun, State.fresh_ne_zero h, hg, ?_, nc_rpc_free_not_owned c _ _
    (State.fresh_ne_zero h) hg, by simp, ?_⟩
  · intro q hq
    simp [hq, State.get?_after_malloc]
  · intro q
    by_cases hq : q = h.fresh
    · subst hq
      simp [State.get?_fresh]
    · simp [hq, State.get?_after_malloc]

/-- C1 (amended): for every constructor that takes an ownership policy, on arguments
that pass its shape check and with memory for the request object, the request built with
`NC_RPC_PARAMTYPE_FREE` (the spec's `BY_REFERENCE`) stores the caller's values as given
with the ownership flag set. When the caller hands over live blocks of their own,
`nc_rpc_free` on that request releases, besides the request object, each value of
`Call.released` that is not `NULL`, exactly once: the caller's buffer or tree no longer
exists afterwards. -/
theorem by_reference_hands_ownership_over (c : Call) (h : State)
    (ha : c.accepted h = true) (hm : h.alloc_fails = false)
    (hl : c.handed_over h = true) :
    ∃ h1 h2, c.run .NC_RPC_PARAMTYPE_FREE h = some (h.fresh, h1) ∧ h.fresh ≠ 0 ∧
      h1.get? h.fresh = some (c.as_given 1) ∧
      (∀ q, q ≠ h.fresh → h1.get? q = h.get? q) ∧
      nc_rpc_free h.fresh h1 = some h2 ∧
      (∀ p ∈ c.released, p ≠ 0 → h2.get? p = none ∧
        h2.log.count (c.release_event p) = h1.log.count (c.release_event p) + 1) ∧
      h2.get? h.fresh = none := by
  have hrun := Call.run_as_given c .NC_RPC_PARAMTYPE_FREE h (by decide) ha hm
  have hflag : (if NC_RPC_PARAMTYPE.NC_RPC_PARAMTYPE_FREE = .NC_RPC_PARAMTYPE_CONST
      then 0 else 1) = 1 := by decide
  rw [hflag] at hrun
  have hg : (h.after_malloc.set h.fresh (c.as_given 1)).get? h.fresh = some (c.as_given 1) := by
    simp
  have hSq : ∀ q, q ≠ h.fresh →
      (h.after_malloc.set h.fresh (c.as_given 1)).get? q = h.get? q := by
    intro q hq
    simp [hq, State.get?_after_malloc]
  simp only [Call.handed_over, Bool.and_eq_true, List.all_eq_true, decide_eq_true_eq] at hl
  obtain ⟨hlive, hnd⟩ := hl
  have hlh : ∀ p ∈ c.released, p ≠ 0 → c.can_release p h = true := by
    intro p hp hp0
    simpa [hp0] using hlive p hp
  have hlS : ∀ p ∈ c.released, p ≠ 0 →
      c.can_release p (h.after_malloc.set h.fresh (c.as_given 1)) = true := by
    intro p hp hp0
    obtain ⟨o, ho⟩ := Call.can_release_live c p h (hlh p hp hp0)
    rw [Call.can_release_congr c p h _ (hSq p (State.ne_fresh ho))]
    exact hlh p hp hp0
  obtain ⟨s2, e, hlog, hget⟩ := Call.release_all_spec c c.released _ hlS hnd
  have hnotin : h.fresh ∉ c.released.filter (fun p => p != 0) := by
    intro hmem
    obtain ⟨hm1, hm2⟩ := List.mem_filter.1 hmem
    obtain ⟨o, ho⟩ := Call.can_release_live c _ h (hlh _ hm1 (by simpa using hm2))
    rw [State.get?_fresh] at ho
    cases ho
  have hs2a : s2.get? h.fresh = some (c.as_given 1) := by
    rw [hget, if_neg hnotin, hg]
  have hfree : free h.fresh s2 = some ((s2.del h.fresh).emit (Event.free h.fresh)) := by
    simp [free, State.fresh_ne_zero, hs2a]
  refine ⟨_, (s2.del h.fresh).emit (Event.free h.fresh), hrun, State.fresh_ne_zero h, hg,
    hSq, ?_, ?_, ?_⟩
  · rw [nc_rpc_free_owned c _ _ (State.fresh_ne_zero h) hg, e, Option.some_bind, hfree]
  · intro p hp hp0
    have hpin : p ∈ c.released.filter (fun p => p != 0) :=
      List.mem_filter.2 ⟨hp, by simpa using hp0⟩
    have hpa : p ≠ h.fresh := fun heq => hnotin (heq ▸ hpin)
    constructor
    · simp [hpa, hget, hpin]
    · have hc1 : List.count (c.release_event p)
          ((c.released.filter (fun p => p != 0)).map c.release_event) = 1 := by
        rw [List.count_map_of_injective _ _ (Call.release_event_injective c)]
        exact List.count_eq_one_of_mem hnd hpin
      have hc2 : List.count (c.release_event p) [Event.free h.fresh] = 0 :=
        List.count_eq_zero_of_not_mem (by
          simpa using (Call.release_event_ne_free c p h.fresh hpa).symm)
      simp only [State.log_emit, State.log_del, hlog, List.count_append, hc1, hc2,
        State.log_set, State.log_after_malloc]
  · simp

/-- C7 at a concrete call: `nc_rpc_commit(1, 30, "abc", "/a/b", CONST)` on `sample`. -/
theorem const_reference_fields_never_released_witness :
    ((Call.commit 1 30 3 2).accepted sample = true ∧ sample.alloc_fails = false) ∧
    ∃ h1 h2, (Call.commit 1 30 3 2).run .NC_RPC_PARAMTYPE_CONST sample =
        some (sample.fresh, h1) ∧ sample.fresh ≠ 0 ∧
      h1.get? sample.fresh = some ((Call.commit 1 30 3 2).as_given 0) ∧
      (∀ q, q ≠ sample.fresh → h1.get? q = sample.get? q) ∧
      nc_rpc_free sample.fresh h1 = some h2 ∧
      h2.log = h1.log ++ [Event.free sample.fresh] ∧
      ∀ q, h2.get? q = sample.get? q :=
  ⟨⟨by decide, by decide⟩,
    const_reference_fields_never_released (.commit 1 30 3 2) sample (by decide) (by decide)⟩

/-- C1 as stated fails: `nc_rpc_generic_xml("<filter/>", NC_RPC_PARAMTYPE_FREE)` on
`sample` returns the request at address 11 that stores the caller's pointer 1 with the
ownership flag 1 (owned), and `nc_rpc_free` on it releases the caller's buffer: address
1 is no longer live and the log shows `free(1)` before `free(11)`. -/
theorem by_reference_releases_caller_buffer :
    ((nc_rpc_generic_xml 1 .NC_RPC_PARAMTYPE_FREE sample).bind fun r =>
      (nc_rpc_free r.1 r.2).map fun h2 => (r.1, r.2.get? r.1, h2.get? 1, h2.log)) =
    some (11, some (Obj.nc_rpc_generic_xml .NC_RPC_GENERIC_XML 1 1), none,
      [Event.malloc 11, Event.free 1, Event.free 11]) := by
  decide

/-- C1 (amended) at a concrete call: `nc_rpc_commit(1, 30, "abc", "/a/b", FREE)` on
`sample`. -/
theorem by_reference_hands_ownership_over_witness :
    ((Call.commit 1 30 3 2).accepted sample = true ∧ sample.alloc_fails = false ∧
      (Call.commit 1 30 3 2).handed_over sample = true) ∧
    ∃ h1 h2, (Call.commit 1 30 3 2).run .NC_RPC_PARAMTYPE_FREE sample =
        some (sample.fresh, h1) ∧ sample.fresh ≠ 0 ∧
      h1.get? sample.fresh = some ((Call.commit 1 30 3 2).as_given 1) ∧
      (∀ q, q ≠ sample.fresh → h1.get? q = sample.get? q) ∧
      nc_rpc_free sample.fresh h1 = some h2 ∧
      (∀ p ∈ (Call.commit 1 30 3 2).released, p ≠ 0 → h2.get? p = none ∧
        h2.log.count ((Call.commit 1 30 3 2).release_event p) =
          h1.log.count ((Call.commit 1 30 3 2).release_event p) + 1) ∧
      h2.get? sample.fresh = none :=
  ⟨⟨by decide, by decide, by decide⟩,
    by_reference_hands_ownership_over (.commit 1 30 3 2) sample (by decide) (by decide)
      (by decide)⟩

/-! ## Behaviour of the destructors at concrete inputs -/

/-- C2 (as the code behaves): `nc_rpc_copy(0, "abc", 0, "<filter/>", DUP_AND_FREE)` on
`sample` duplicates the target URL to address 12 and the source to address 13;
`nc_rpc_free` on the request releases the source copy 13 and the request 11 and never the
target copy 12, which is still live afterwards. -/
theorem copy_target_url_copy_is_leaked :
    ((nc_rpc_copy 0 3 0 1 .NC_RPC_PARAMTYPE_DUP_AND_FREE sample).bind fun r =>
      (nc_rpc_free r.1 r.2).map fun h2 => (r.2.get? r.1, h2.get? 12, h2.log)) =
    some (some (Obj.nc_rpc_copy .NC_RPC_COPY 0 12 0 13 1), some (Obj.cstr (cstring "abc")),
      [Event.malloc 11, Event.strdup 3 12, Event.strdup 1 13, Event.free 13,
        Event.free 11]) := by
  decide

/-- C5 as stated fails: `nc_notif_free` on the notification at address 10 of `sample`
releases its content tree 9 and the notification object, and never the XML fragment 8
the notification was parsed from, which is still live afterwards. -/
theorem notif_xml_fragment_is_not_released :
    (nc_notif_free 10 sample).map (fun h2 => (h2.get? 8, h2.get? 9, h2.get? 10, h2.log)) =
    some (some (Obj.lyxml_elem 80), none, none, [Event.lyd_free 9, Event.free 10]) := by
  decide

/-- C5 (amended): `nc_notif_free` on a non-null notification releases the content tree of
the notification once (when it has one) and then the notification object once, and
nothing else: every other block, the XML fragment included, is as before. -/
theorem notif_free_releases_tree_and_object (h : State) (notif root tree : Ptr)
    (ty : NC_REPLY) (hn : notif ≠ 0)
    (hg : h.get? notif = some (Obj.nc_notif ty root tree))
    (ht : tree ≠ 0 → ∃ next prev content, h.get? tree = some (Obj.lyd_node next prev content)) :
    ∃ h2, nc_notif_free notif h = some h2 ∧
      h2.log = h.log ++ (if tree = 0 then [] else [Event.lyd_free tree]) ++
        [Event.free notif] ∧
      ∀ q, h2.get? q = if q = notif ∨ (q = tree ∧ tree ≠ 0) then none else h.get? q := by
  by_cases h0 : tree = 0
  · subst h0
    refine ⟨(h.del notif).emit (Event.free notif), ?_, by simp, ?_⟩
    · simp [nc_notif_free, hn, hg, lyd_free, free]
    · intro q
      simp
  · obtain ⟨next, prev, content, hl⟩ := ht h0
    have hne : notif ≠ tree := by
      intro he
      rw [he, hl] at hg
      cases hg
    refine ⟨(((h.del tree).emit (Event.lyd_free tree)).del notif).emit (Event.free notif),
      ?_, by simp [h0], ?_⟩
    · simp [nc_notif_free, hn, hg, lyd_free, free, h0, hl, hne]
    · intro q
      by_cases hq : q = notif
      · simp [hq]
      · by_cases hq2 : q = tree
        · simp [hq2, h0]
        · simp [hq, hq2]

/-- C5 (amended) at the notification at address 10 of `sample`. -/
theorem notif_free_releases_tree_and_object_witness :
    ∃ h2, nc_notif_free 10 sample = some h2 ∧
      h2.log = sample.log ++ (if (9 : Ptr) = 0 then [] else [Event.lyd_free 9]) ++
        [Event.free 10] ∧
      ∀ q, h2.get? q = if q = 10 ∨ (q = 9 ∧ (9 : Ptr) ≠ 0) then none else sample.get? q :=
  notif_free_releases_tree_and_object sample 10 8 9 .NC_REPLY_NOTIF (by decide) (by decide)
    (fun _ => ⟨0, 9, 90, by decide⟩)

/-- C6 (as the code behaves): `nc_rpc_copy(0, "/a/b", 0, "abc", DUP_AND_FREE)` on `sample`
stores private copies (12 of the target URL 2, 13 of the source 3) with the ownership
flag set, and overwriting the caller's buffers afterwards leaves the copies unchanged;
but `nc_rpc_free` releases only the source copy and the request: the copy 12 of the
target URL is never released, while the caller's originals stay live. -/
theorem dup_copy_target_url_not_released :
    ((nc_rpc_copy 0 2 0 3 .NC_RPC_PARAMTYPE_DUP_AND_FREE sample).map fun r =>
      (r.2.get? r.1, r.2.get? 12, r.2.get? 13,
        ((r.2.set 2 (Obj.cstr [])).set 3 (Obj.cstr [])).get? 12,
        ((r.2.set 2 (Obj.cstr [])).set 3 (Obj.cstr [])).get? 13)) =
      some (some (Obj.nc_rpc_copy .NC_RPC_COPY 0 12 0 13 1),
        some (Obj.cstr (cstring "/a/b")), some (Obj.cstr (cstring "abc")),
        some (Obj.cstr (cstring "/a/b")), some (Obj.cstr (cstring "abc"))) ∧
    ((nc_rpc_copy 0 2 0 3 .NC_RPC_PARAMTYPE_DUP_AND_FREE sample).bind fun r =>
      (nc_rpc_free r.1 r.2).map fun h2 =>
        (h2.get? 2, h2.get? 3, h2.get? 12, h2.get? 13, h2.log)) =
      some (some (Obj.cstr (cstring "/a/b")), some (Obj.cstr (cstring "abc")),
        some (Obj.cstr (cstring "/a/b")), none,
        [Event.malloc 11, Event.strdup 2 12, Event.strdup 3 13, Event.free 13,
          Event.free 11]) := by
  constructor <;> decide

/-! ## The shape checks at concrete inputs -/

/-- C3 at the filters of the spec: `<filter/>`, `/a/b` and `abc` are accepted and
`123bad` is rejected, by `nc_rpc_get` under each of the three policies. -/
theorem filter_shape_decides_request_witness :
    (begins_xml_xpath_or_letter (cstring "<filter/>") = true ∧
      begins_xml_xpath_or_letter (cstring "/a/b") = true ∧
      begins_xml_xpath_or_letter (cstring "abc") = true ∧
      begins_xml_xpath_or_letter (cstring "123bad") = false) ∧
    (∃ r h1, nc_rpc_get 1 .NC_RPC_PARAMTYPE_DUP_AND_FREE sample = some (r, h1) ∧
      (r ≠ 0 ↔ begins_xml_xpath_or_letter (cstring "<filter/>") = true)) ∧
    (∃ r h1, nc_rpc_get 2 .NC_RPC_PARAMTYPE_FREE sample = some (r, h1) ∧
      (r ≠ 0 ↔ begins_xml_xpath_or_letter (cstring "/a/b") = true)) ∧
    (∃ r h1, nc_rpc_get 3 .NC_RPC_PARAMTYPE_CONST sample = some (r, h1) ∧
      (r ≠ 0 ↔ begins_xml_xpath_or_letter (cstring "abc") = true)) ∧
    (∃ r h1, nc_rpc_get 4 .NC_RPC_PARAMTYPE_DUP_AND_FREE sample = some (r, h1) ∧
      (r ≠ 0 ↔ begins_xml_xpath_or_letter (cstring "123bad") = true)) :=
  ⟨by decide,
    (filter_shape_decides_request sample 1 _ .NC_RPC_PARAMTYPE_DUP_AND_FREE 0 0 0 0
      (by decide) (by decide) (by decide) (by decide)).1,
    (filter_shape_decides_request sample 2 _ .NC_RPC_PARAMTYPE_FREE 0 0 0 0
      (by decide) (by decide) (by decide) (by decide)).1,
    (filter_shape_decides_request sample 3 _ .NC_RPC_PARAMTYPE_CONST 0 0 0 0
      (by decide) (by decide) (by decide) (by decide)).1,
    (filter_shape_decides_request sample 4 _ .NC_RPC_PARAMTYPE_DUP_AND_FREE 0 0 0 0
      (by decide) (by decide) (by decide) (by decide)).1⟩

/-- C8 at the nodes of `sample`: the stand-alone node 5 and the node 6, which has the
next sibling 7. -/
theorem generic_requires_single_root_witness :
    (∃ r h1, nc_rpc_generic 5 .NC_RPC_PARAMTYPE_DUP_AND_FREE sample = some (r, h1) ∧
      (r ≠ 0 ↔ ((0 : Ptr) = 0 ∧ (5 : Ptr) = 5))) ∧
    (∃ r h1, nc_rpc_generic 6 .NC_RPC_PARAMTYPE_DUP_AND_FREE sample = some (r, h1) ∧
      (r ≠ 0 ↔ ((7 : Ptr) = 0 ∧ (7 : Ptr) = 6))) :=
  ⟨generic_requires_single_root sample 5 0 5 50 .NC_RPC_PARAMTYPE_DUP_AND_FREE
      (by decide) (by decide) (by decide),
    generic_requires_single_root sample 6 7 7 60 .NC_RPC_PARAMTYPE_DUP_AND_FREE
      (by decide) (by decide) (by decide)⟩

/-- C9 at the strings of `sample`: `abc` is accepted as edit content, `/a/b` is not. -/
theorem edit_content_shape_decides_request_witness :
    (begins_xml_or_letter (cstring "abc") = true ∧
      begins_xml_or_letter (cstring "/a/b") = false) ∧
    (∃ r h1, nc_rpc_edit 1 2 3 1 3 .NC_RPC_PARAMTYPE_DUP_AND_FREE sample = some (r, h1) ∧
      (r ≠ 0 ↔ begins_xml_or_letter (cstring "abc") = true) ∧
      (r ≠ 0 → ∃ cont fl, h1.get? r = some (Obj.nc_rpc_edit .NC_RPC_EDIT 1 2 3 1 cont fl))) ∧
    (∃ r h1, nc_rpc_edit 1 2 3 1 2 .NC_RPC_PARAMTYPE_CONST sample = some (r, h1) ∧
      (r ≠ 0 ↔ begins_xml_or_letter (cstring "/a/b") = true) ∧
      (r ≠ 0 → ∃ cont fl, h1.get? r = some (Obj.nc_rpc_edit .NC_RPC_EDIT 1 2 3 1 cont fl))) :=
  ⟨by decide,
    edit_content_shape_decides_request sample 1 2 3 1 3 _ .NC_RPC_PARAMTYPE_DUP_AND_FREE
      (by decide) (by decide) (by decide),
    edit_content_shape_decides_request sample 1 2 3 1 2 _ .NC_RPC_PARAMTYPE_CONST
      (by decide) (by decide) (by decide)⟩

/-- C10 at concrete calls on `sample`: a copy and a validate without source, and a copy
and a validate whose source is `123bad`; the target URL `123bad` and the delete URL
`123bad` pass. -/
theorem copy_validate_source_optional_witness :
    (sample.alloc_fails = false ∧ null_or_string 4 sample = true ∧
      null_or_string 0 sample = true ∧
      is_string_with begins_xml_or_letter 4 sample = false) ∧
    ((∃ r h1, nc_rpc_copy 1 4 2 0 .NC_RPC_PARAMTYPE_DUP_AND_FREE sample = some (r, h1) ∧
      (r ≠ 0 ↔ ((0 : Ptr) = 0 ∨ is_string_with begins_xml_or_letter 0 sample = true)) ∧
      ((0 : Ptr) = 0 → ∃ trg fl, h1.get? r =
        some (Obj.nc_rpc_copy .NC_RPC_COPY 1 trg 2 0 fl))) ∧
    (∃ r h1, nc_rpc_validate 2 0 .NC_RPC_PARAMTYPE_DUP_AND_FREE sample = some (r, h1) ∧
      (r ≠ 0 ↔ ((0 : Ptr) = 0 ∨ is_string_with begins_xml_or_letter 0 sample = true)) ∧
      ((0 : Ptr) = 0 → ∃ fl, h1.get? r = some (Obj.nc_rpc_validate .NC_RPC_VALIDATE 2 0 fl))) ∧
    (∃ r h1, nc_rpc_delete 1 4 .NC_RPC_PARAMTYPE_DUP_AND_FREE sample = some (r, h1) ∧ r ≠ 0)) ∧
    ((∃ r h1, nc_rpc_copy 1 4 2 4 .NC_RPC_PARAMTYPE_FREE sample = some (r, h1) ∧
      (r ≠ 0 ↔ ((4 : Ptr) = 0 ∨ is_string_with begins_xml_or_letter 4 sample = true)) ∧
      ((4 : Ptr) = 0 → ∃ trg fl, h1.get? r =
        some (Obj.nc_rpc_copy .NC_RPC_COPY 1 trg 2 0 fl))) ∧
    (∃ r h1, nc_rpc_validate 2 4 .NC_RPC_PARAMTYPE_FREE sample = some (r, h1) ∧
      (r ≠ 0 ↔ ((4 : Ptr) = 0 ∨ is_string_with begins_xml_or_letter 4 sample = true)) ∧
      ((4 : Ptr) = 0 → ∃ fl, h1.get? r = some (Obj.nc_rpc_validate .NC_RPC_VALIDATE 2 0 fl))) ∧
    (∃ r h1, nc_rpc_delete 1 0 .NC_RPC_PARAMTYPE_FREE sample = some (r, h1) ∧ r ≠ 0)) :=
  ⟨by decide,
    copy_validate_source_optional sample 1 2 4 0 4 .NC_RPC_PARAMTYPE_DUP_AND_FREE
      (by decide) (by decide) (by decide) (by decide),
    copy_validate_source_optional sample 1 2 4 4 0 .NC_RPC_PARAMTYPE_FREE
      (by decide) (by decide) (by decide) (by decide)⟩

/-! ## Rejected calls, null handles, failed duplications -/

/-- C11: whenever the arguments of a constructor fail its shape check (a filter, an edit
content or a copy/validate source that begins with no accepted character, a data node
that is no single root), the call returns `NULL` and the state after the call is the
state before it: the heap, the allocation schedule and the log of allocations are
unchanged, under every ownership policy. -/
theorem rejected_call_leaves_state_unchanged (c : Call) (p : NC_RPC_PARAMTYPE) (h : State)
    (hr : c.rejected h = true) :
    c.run p h = some (0, h) ∧
      ∀ r h1, c.run p h = some (r, h1) →
        r = 0 ∧ h1.mem = h.mem ∧ h1.oom = h.oom ∧ h1.log = h.log := by
  have hrun := Call.run_rejects c p h hr
  refine ⟨hrun, ?_⟩
  intro r h1 he
  rw [hrun] at he
  cases he
  exact ⟨rfl, rfl, rfl, rfl⟩

/-- C11 at concrete calls on `sample`: `nc_rpc_get("123bad", DUP_AND_FREE)` and
`nc_rpc_generic` on the node 6, which has a next sibling. -/
theorem rejected_call_leaves_state_unchanged_witness :
    ((Call.get 4).rejected sample = true ∧ (Call.generic 6).rejected sample = true) ∧
    ((Call.get 4).run .NC_RPC_PARAMTYPE_DUP_AND_FREE sample = some (0, sample) ∧
      ∀ r h1, (Call.get 4).run .NC_RPC_PARAMTYPE_DUP_AND_FREE sample = some (r, h1) →
        r = 0 ∧ h1.mem = sample.mem ∧ h1.oom = sample.oom ∧ h1.log = sample.log) ∧
    ((Call.generic 6).run .NC_RPC_PARAMTYPE_DUP_AND_FREE sample = some (0, sample) ∧
      ∀ r h1, (Call.generic 6).run .NC_RPC_PARAMTYPE_DUP_AND_FREE sample = some (r, h1) →
        r = 0 ∧ h1.mem = sample.mem ∧ h1.oom = sample.oom ∧ h1.log = sample.log) :=
  ⟨by decide,
    rejected_call_leaves_state_unchanged (.get 4) .NC_RPC_PARAMTYPE_DUP_AND_FREE sample
      (by decide),
    rejected_call_leaves_state_unchanged (.generic 6) .NC_RPC_PARAMTYPE_DUP_AND_FREE sample
      (by decide)⟩

/-- C15: `nc_rpc_free`, `nc_reply_free` and `nc_notif_free` on the null handle return at
once: the state after the call is the state before it, in every state. -/
theorem free_of_null_is_no_op (h : State) :
    nc_rpc_free 0 h = some h ∧ nc_reply_free 0 h = some h ∧ nc_notif_free 0 h = some h := by
  simp [nc_rpc_free, nc_reply_free, nc_notif_free]

/-- C14 (as the code behaves): on `sample_oom` the request object is allocated and the
duplication that follows fails. `nc_rpc_generic_xml("<filter/>", DUP_AND_FREE)`,
`nc_rpc_getschema("abc", NULL, NULL, DUP_AND_FREE)` and `nc_rpc_generic` on the node 5
with `DUP_AND_FREE` each return the request 11, whose copy of the parameter the caller
supplied is `NULL`. -/
theorem failed_duplication_returns_request :
    ((nc_rpc_generic_xml 1 .NC_RPC_PARAMTYPE_DUP_AND_FREE sample_oom).map fun r =>
      (r.1, r.2.get? r.1, r.2.log)) =
      some (11, some (Obj.nc_rpc_generic_xml .NC_RPC_GENERIC_XML 0 1), [Event.malloc 11]) ∧
    ((nc_rpc_getschema 3 0 0 .NC_RPC_PARAMTYPE_DUP_AND_FREE sample_oom).map fun r =>
      (r.1, r.2.get? r.1, r.2.log)) =
      some (11, some (Obj.nc_rpc_getschema .NC_RPC_GETSCHEMA 0 0 0 1), [Event.malloc 11]) ∧
    ((nc_rpc_generic 5 .NC_RPC_PARAMTYPE_DUP_AND_FREE sample_oom).map fun r =>
      (r.1, r.2.get? r.1, r.2.log)) =
      some (11, some (Obj.nc_rpc_generic .NC_RPC_GENERIC 0 1), [Event.malloc 11]) := by
  decide

/-- C17 (as the code behaves): for every reply of kind `NC_REPLY_NOTIF`, in every state,
`nc_reply_free` is undefined: `nc_notif_free` has released the object when
`nc_reply_free` calls `free(reply)` on it once more. -/
theorem notif_reply_is_freed_twice (h : State) (reply root tree : Ptr) (hn : reply ≠ 0)
    (hg : h.get? reply = some (Obj.nc_notif .NC_REPLY_NOTIF root tree)) :
    nc_reply_free reply h = none ∧
      ∀ h1, nc_notif_free reply h = some h1 → h1.get? reply = none ∧ free reply h1 = none := by
  have key : ∀ h1, nc_notif_free reply h = some h1 →
      h1.get? reply = none ∧ free reply h1 = none := by
    intro h1 he
    simp only [nc_notif_free, if_neg hn, hg, Option.bind_eq_some] at he
    obtain ⟨h0, -, hf⟩ := he
    have hgone : h1.get? reply = none := by
      unfold free at hf
      rw [if_neg hn] at hf
      cases hx : h0.get? reply with
      | none => simp [hx] at hf
      | some o =>
        simp only [hx, Option.some.injEq] at hf
        rw [← hf]
        simp
    exact ⟨hgone, by simp [free, hn, hgone]⟩
  refine ⟨?_, key⟩
  unfold nc_reply_free
  rw [if_neg hn, hg]
  simp only [Option.some_bind, Obj.reply_type]
  cases he : nc_notif_free reply h with
  | none => rfl
  | some h1 => exact (key h1 he).2

/-- C17 at the notification reply 47 of `sample_replies`: `nc_notif_free` alone
succeeds and releases the tree 46 and the object 47; `nc_reply_free` is undefined. -/
theorem notif_reply_is_freed_twice_witness :
    (nc_notif_free 47 sample_replies).map (fun h1 => h1.log) =
      some [Event.lyd_free 46, Event.free 47] ∧
    (nc_reply_free 47 sample_replies = none ∧
      ∀ h1, nc_notif_free 47 sample_replies = some h1 →
        h1.get? 47 = none ∧ free 47 h1 = none) :=
  ⟨by decide, notif_reply_is_freed_twice sample_replies 47 45 46 (by decide) (by decide)⟩

/-- C12 (as the code behaves): `nc_reply_free` on the error reply 31 of `sample_replies`
gives back every string of the two records to the dictionary (the shared string 1
twice, once for each record that holds it), releases every list element before the
array that holds it, and the reply object last; the array 30 of the records is never
released and is still live afterwards. -/
theorem error_record_array_is_leaked :
    (nc_reply_free 31 sample_replies).map (fun h2 => h2.log) =
      some [Event.lydict_remove 100 1, Event.lydict_remove 100 2, Event.lydict_remove 100 3,
        Event.lydict_remove 100 4, Event.lydict_remove 100 5, Event.lydict_remove 100 6,
        Event.lydict_remove 100 7, Event.lydict_remove 100 8,
        Event.lydict_remove 100 9, Event.lydict_remove 100 10, Event.free 20,
        Event.lydict_remove 100 11, Event.free 21,
        Event.lydict_remove 100 12, Event.free 22,
        Event.lyxml_free 13, Event.free 23,
        Event.lydict_remove 100 1, Event.lydict_remove 100 14, Event.free 24,
        Event.free 31] ∧
    (nc_reply_free 31 sample_replies).map (fun h2 => h2.mem.map Prod.fst) =
      some [30, 40, 41, 42, 43, 44, 45, 46, 47] ∧
    (nc_reply_free 31 sample_replies).map (fun h2 => (h2.get? 30).isSome) = some true := by
  refine ⟨?_, ?_, ?_⟩ <;> decide

/-! ## The forest of a data reply -/

theorem is_chain_nil (h : State) (p : Ptr) : is_chain h p [] = true ↔ p = 0 := by
  simp [is_chain]

theorem is_chain_cons (h : State) (p q : Ptr) (qs : List Ptr) :
    is_chain h p (q :: qs) = true ↔
      p = q ∧ p ≠ 0 ∧ ∃ next prev content,
        h.get? p = some (Obj.lyd_node next prev content) ∧ is_chain h next qs = true := by
  rw [is_chain]
  cases hg : h.get? p with
  | none => simp
  | some o => cases o <;> simp [and_assoc]

theorem is_chain_unique (h : State) (l1 : List Ptr) :
    ∀ (p : Ptr) (l2 : List Ptr), is_chain h p l1 = true → is_chain h p l2 = true → l1 = l2 := by
  induction l1 with
  | nil =>
    intro p l2 h1 h2
    have hp := (is_chain_nil h p).1 h1
    cases l2 with
    | nil => rfl
    | cons q qs => exact absurd hp ((is_chain_cons h p q qs).1 h2).2.1
  | cons a l1 ih =>
    intro p l2 h1 h2
    obtain ⟨hpa, hp0, next, prev, content, hg, hrest⟩ := (is_chain_cons h p a l1).1 h1
    cases l2 with
    | nil => exact absurd ((is_chain_nil h p).1 h2) hp0
    | cons q qs =>
      obtain ⟨hpq, -, next2, prev2, content2, hg2, hrest2⟩ := (is_chain_cons h p q qs).1 h2
      rw [hg] at hg2
      cases hg2
      rw [← hpa, ← hpq, ih next qs hrest hrest2]

theorem is_chain_from_member (h : State) (l : List Ptr) :
    ∀ (p q : Ptr), is_chain h p l = true → q ∈ l →
      ∃ l2, is_chain h q l2 = true ∧ l2.length ≤ l.length := by
  induction l with
  | nil =>
    intro p q _ hq
    cases hq
  | cons a l ih =>
    intro p q hc hq
    obtain ⟨hpa, hp0, next, prev, content, hg, hrest⟩ := (is_chain_cons h p a l).1 hc
    rcases List.mem_cons.1 hq with hqa | hql
    · subst hqa
      subst hpa
      exact ⟨p :: l, hc, le_refl _⟩
    · obtain ⟨l2, hl2, hlen⟩ := ih next q hrest hql
      exact ⟨l2, hl2, Nat.le_succ_of_le hlen⟩

theorem is_chain_nodup (h : State) (l : List Ptr) :
    ∀ (p : Ptr), is_chain h p l = true → l.Nodup := by
  induction l with
  | nil =>
    intro _ _
    exact List.nodup_nil
  | cons a l ih =>
    intro p hc
    obtain ⟨hpa, hp0, next, prev, content, hg, hrest⟩ := (is_chain_cons h p a l).1 hc
    refine List.nodup_cons.2 ⟨?_, ih next hrest⟩
    intro hmem
    obtain ⟨l2, hl2, hlen⟩ := is_chain_from_member h l next a hrest hmem
    subst hpa
    have := is_chain_unique h (p :: l) p l2 hc hl2
    rw [← this] at hlen
    simp at hlen

theorem is_chain_live (h : State) (l : List Ptr) :
    ∀ (p : Ptr), is_chain h p l = true →
      ∀ q ∈ l, ∃ next prev content, h.get? q = some (Obj.lyd_node next prev content) := by
  induction l with
  | nil =>
    intro _ _ q hq
    cases hq
  | cons a l ih =>
    intro p hc q hq
    obtain ⟨hpa, hp0, next, prev, content, hg, hrest⟩ := (is_chain_cons h p a l).1 hc
    rcases List.mem_cons.1 hq with hqa | hql
    · subst hqa
      subst hpa
      exact ⟨next, prev, content, hg⟩
    · exact ih next hrest q hql

theorem is_chain_congr (h k : State) (l : List Ptr) :
    ∀ (p : Ptr), (∀ q ∈ l, k.get? q = h.get? q) → is_chain h p l = true →
      is_chain k p l = true := by
  induction l with
  | nil =>
    intro p _ hc
    simpa [is_chain] using hc
  | cons a l ih =>
    intro p hsame hc
    obtain ⟨hpa, hp0, next, prev, content, hg, hrest⟩ := (is_chain_cons h p a l).1 hc
    refine (is_chain_cons k p a l).2 ⟨hpa, hp0, next, prev, content, ?_, ?_⟩
    · rw [← hg, hpa]
      exact hsame a (List.mem_cons_self _ _)
    · exact ih next (fun q hq => hsame q (List.mem_cons_of_mem _ hq)) hrest

theorem lookup_some_mem_keys (m : List (Ptr × Obj)) (p : Ptr) (o : Obj)
    (hp : m.lookup p = some o) : p ∈ m.map Prod.fst := by
  induction m with
  | nil => simp at hp
  | cons e m ih =>
    obtain ⟨q, x⟩ := e
    simp only [List.lookup_cons] at hp
    by_cases hq : p = q
    · subst hq
      simp
    · have hb : (p == q) = false := by simpa using hq
      rw [hb] at hp
      simp [ih hp]

theorem is_chain_length_le (h : State) (l : List Ptr) (p : Ptr)
    (hc : is_chain h p l = true) : l.length ≤ h.mem.length := by
  have hsub : l ⊆ h.mem.map Prod.fst := by
    intro q hq
    obtain ⟨next, prev, content, hg⟩ := is_chain_live h l p hc q hq
    exact lookup_some_mem_keys h.mem q _ hg
  have := (List.subperm_of_subset (is_chain_nodup h l p hc) hsub).length_le
  simpa using this

/-- The loop over a chain: `k` tests of the loop condition give the result exactly when
`k` exceeds the number of nodes; every node is released once, in chain order, and the
`data` field of the reply is `NULL` at the end. -/
theorem free_data_loop_chain (t : NC_REPLY) (reply : Ptr) (nodes : List Ptr) :
    ∀ (h : State) (first : Ptr), h.get? reply = some (Obj.nc_reply_data t first) →
      is_chain h first nodes = true →
      ∃ h1, (∀ k, free_data_loop k reply h = if nodes.length < k then some h1 else none) ∧
        h1.get? reply = some (Obj.nc_reply_data t 0) ∧
        h1.log = h.log ++ nodes.map Event.lyd_free ∧
        ∀ q, q ≠ reply → h1.get? q = if q ∈ nodes then none else h.get? q := by
  induction nodes with
  | nil =>
    intro h first hg hc
    have h0 := (is_chain_nil h first).1 hc
    subst h0
    refine ⟨h, ?_, hg, by simp, by simp⟩
    intro k
    cases k with
    | zero => simp [free_data_loop]
    | succ k => simp [free_data_loop, hg]
  | cons a nodes ih =>
    intro h first hg hc
    have hnd := is_chain_nodup h (a :: nodes) first hc
    obtain ⟨hfa, hf0, next, prev, content, hnode, hrest⟩ :=
      (is_chain_cons h first a nodes).1 hc
    subst hfa
    have hne : first ≠ reply := by
      intro he
      rw [he, hg] at hnode
      cases hnode
    obtain ⟨hnotin, -⟩ := List.nodup_cons.1 hnd
    have hfree : lyd_free first (h.set reply (Obj.nc_reply_data t next)) =
        some (((h.set reply (Obj.nc_reply_data t next)).del first).emit
          (Event.lyd_free first)) := by
      simp [lyd_free, hf0, hne, hnode]
    have hg2 : (((h.set reply (Obj.nc_reply_data t next)).del first).emit
        (Event.lyd_free first)).get? reply = some (Obj.nc_reply_data t next) := by
      simp [Ne.symm hne]
    have hrest2 : is_chain (((h.set reply (Obj.nc_reply_data t next)).del first).emit
        (Event.lyd_free first)) next nodes = true := by
      refine is_chain_congr h _ nodes next ?_ hrest
      intro q hq
      obtain ⟨n2, p2, c2, hq2⟩ := is_chain_live h nodes next hrest q hq
      have hqf : q ≠ first := fun he => hnotin (he ▸ hq)
      have hqr : q ≠ reply := by
        intro he
        rw [he, hg] at hq2
        cases hq2
      simp [hqf, hqr]
    obtain ⟨h1, hloop, hdata, hlog, hget⟩ := ih _ next hg2 hrest2
    refine ⟨h1, ?_, hdata, ?_, ?_⟩
    · intro k
      cases k with
      | zero => simp [free_data_loop]
      | succ k =>
        simp only [free_data_loop, hg, hnode, if_neg hf0, hfree, Option.some_bind, hloop k,
          List.length_cons, Nat.succ_lt_succ_iff]
    · rw [hlog]
      simp
    · intro q hq
      rw [hget q hq]
      by_cases hqf : q = first
      · subst hqf
        simp
      · by_cases hqn : q ∈ nodes
        · simp [hqn]
        · simp [hqn, hqf, hq]

/-- C13: for every data reply whose content is a finite sibling chain of `n` root nodes,
the loop of `nc_reply_free` ends at the test that follows the `n`-th iteration (`k` tests
of the condition suffice exactly when `k > n`), releases each root once in chain order,
reads no released node, and leaves the `data` field `NULL`; `nc_reply_free` then releases
the reply object, and what it released is the roots and the reply, nothing when the
forest is empty but the reply. An ok reply releases the reply object only. -/
theorem data_reply_releases_each_root_once (h : State) (reply first ok : Ptr)
    (nodes : List Ptr) (hn : reply ≠ 0)
    (hg : h.get? reply = some (Obj.nc_reply_data .NC_REPLY_DATA first))
    (hc : is_chain h first nodes = true) :
    (∃ h1, (∀ k, free_data_loop k reply h = if nodes.length < k then some h1 else none) ∧
      h1.get? reply = some (Obj.nc_reply_data .NC_REPLY_DATA 0) ∧
      h1.log = h.log ++ nodes.map Event.lyd_free) ∧
    (∃ h2, nc_reply_free reply h = some h2 ∧
      h2.log = h.log ++ nodes.map Event.lyd_free ++ [Event.free reply] ∧
      ∀ q, h2.get? q = if q = reply ∨ q ∈ nodes then none else h.get? q) ∧
    (ok ≠ 0 → h.get? ok = some (Obj.nc_reply .NC_REPLY_OK) →
      nc_reply_free ok h = some ((h.del ok).emit (Event.free ok))) := by
  obtain ⟨h1, hloop, hdata, hlog, hget⟩ :=
    free_data_loop_chain .NC_REPLY_DATA reply nodes h first hg hc
  refine ⟨⟨h1, hloop, hdata, hlog⟩, ⟨(h1.del reply).emit (Event.free reply), ?_, ?_, ?_⟩, ?_⟩
  · have hlen := is_chain_length_le h nodes first hc
    have hk := hloop (h.mem.length + 1)
    rw [if_pos (Nat.lt_succ_of_le hlen)] at hk
    unfold nc_reply_free
    rw [if_neg hn, hg]
    simp only [Option.some_bind, Obj.reply_type, hk]
    simp [free, hn, hdata]
  · simp [hlog]
  · intro q
    by_cases hq : q = reply
    · simp [hq]
    · simp [hq, hget q hq]
  · intro hok hgo
    unfold nc_reply_free
    rw [if_neg hok, hgo]
    simp [Obj.reply_type, free, hok, hgo]

/-- C13 at the data reply 43 of `sample_replies`, whose chain is 40, 41, 42, and at the
ok reply 44. -/
theorem data_reply_releases_each_root_once_witness :
    (∃ h1, (∀ k, free_data_loop k 43 sample_replies =
        if [40, 41, 42].length < k then some h1 else none) ∧
      h1.get? 43 = some (Obj.nc_reply_data .NC_REPLY_DATA 0) ∧
      h1.log = sample_replies.log ++ [40, 41, 42].map Event.lyd_free) ∧
    (∃ h2, nc_reply_free 43 sample_replies = some h2 ∧
      h2.log = sample_replies.log ++ [40, 41, 42].map Event.lyd_free ++ [Event.free 43] ∧
      ∀ q, h2.get? q = if q = 43 ∨ q ∈ [40, 41, 42] then none else sample_replies.get? q) ∧
    ((44 : Ptr) ≠ 0 → sample_replies.get? 44 = some (Obj.nc_reply .NC_REPLY_OK) →
      nc_reply_free 44 sample_replies =
        some ((sample_replies.del 44).emit (Event.free 44))) :=
  data_reply_releases_each_root_once sample_replies 43 40 44 [40, 41, 42] (by decide)
    (by decide) (by decide)

/-! ## The record a successful constructor returns -/

theorem Call.run_success_record (c : Call) (p : NC_RPC_PARAMTYPE) (h : State) (r : Ptr)
    (h1 : State) (hrun : c.run p h = some (r, h1)) (hr : r ≠ 0) :
    ∃ qs, qs.length = c.ptrs.length ∧
      h1.get? r = some ((c.with_ptrs qs).as_given
        (if p = .NC_RPC_PARAMTYPE_CONST then 0 else 1)) := by
  cases c with
  | generic data =>
    simp only [Call.run, nc_rpc_generic] at hrun
    split at hrun
    · cases hrun
    · split at hrun
      · split at hrun
        · simp only [Option.some.injEq, Prod.mk.injEq] at hrun
          exact absurd hrun.1.symm hr
        · split at hrun
          · simp only [Option.some.injEq, Prod.mk.injEq] at hrun
            exact absurd hrun.1.symm hr
          · simp only [Option.bind_eq_some, Option.some.injEq, Prod.mk.injEq] at hrun
            obtain ⟨x, -, rfl, rfl⟩ := hrun
            exact ⟨[x.1], rfl, by simp [Call.with_ptrs, Call.as_given]⟩
      · cases hrun
  | generic_xml xml_str =>
    simp only [Call.run, nc_rpc_generic_xml] at hrun
    split at hrun
    · simp only [Option.some.injEq, Prod.mk.injEq] at hrun
      exact absurd hrun.1.symm hr
    · simp only [Option.bind_eq_some, Option.some.injEq, Prod.mk.injEq] at hrun
      obtain ⟨x1, -, rfl, rfl⟩ := hrun
      exact ⟨[x1.1], rfl, by simp [Call.with_ptrs, Call.as_given]⟩
  | getconfig source filter =>
    simp only [Call.run, nc_rpc_getconfig, Option.bind_eq_some] at hrun
    obtain ⟨ch, -, hrun⟩ := hrun
    split at hrun
    · simp only [Option.some.injEq, Prod.mk.injEq] at hrun
      exact absurd hrun.1.symm hr
    · split at hrun
      · simp only [Option.some.injEq, Prod.mk.injEq] at hrun
        exact absurd hrun.1.symm hr
      · simp only [Option.bind_eq_some, Option.some.injEq, Prod.mk.injEq] at hrun
        obtain ⟨x1, -, rfl, rfl⟩ := hrun
        exact ⟨[x1.1], rfl, by simp [Call.with_ptrs, Call.as_given]⟩
  | edit target default_op test_opt error_opt edit_content =>
    simp only [Call.run, nc_rpc_edit, Option.bind_eq_some] at hrun
    obtain ⟨ch, -, hrun⟩ := hrun
    split at hrun
    · simp only [Option.some.injEq, Prod.mk.injEq] at hrun
      exact absurd hrun.1.symm hr
    · split at hrun
      · simp only [Option.some.injEq, Prod.mk.injEq] at hrun
        exact absurd hrun.1.symm hr
      · simp only [Option.bind_eq_some, Option.some.injEq, Prod.mk.injEq] at hrun
        obtain ⟨x1, -, rfl, rfl⟩ := hrun
        exact ⟨[x1.1], rfl, by simp [Call.with_ptrs, Call.as_given]⟩
  | copy target url_trg source url_or_config_src =>
    simp only [Call.run, nc_rpc_copy, Option.bind_eq_some] at hrun
    obtain ⟨ch, -, hrun⟩ := hrun
    split at hrun
    · simp only [Option.some.injEq, Prod.mk.injEq] at hrun
      exact absurd hrun.1.symm hr
    · split at hrun
      · simp only [Option.some.injEq, Prod.mk.injEq] at hrun
        exact absurd hrun.1.symm hr
      · simp only [Option.bind_eq_some, Option.some.injEq, Prod.mk.injEq] at hrun
        obtain ⟨x1, -, x2, -, rfl, rfl⟩ := hrun
        exact ⟨[x1.1, x2.1], rfl, by simp [Call.with_ptrs, Call.as_given]⟩
  | delete target url =>
    simp only [Call.run, nc_rpc_delete] at hrun
    split at hrun
    · simp only [Option.some.injEq, Prod.mk.injEq] at hrun
      exact absurd hrun.1.symm hr
    · simp only [Option.bind_eq_some, Option.some.injEq, Prod.mk.injEq] at hrun
      obtain ⟨x1, -, rfl, rfl⟩ := hrun
      exact ⟨[x1.1], rfl, by simp [Call.with_ptrs, Call.as_given]⟩
  | get filter =>
    simp only [Call.run, nc_rpc_get, Option.bind_eq_some] at hrun
    obtain ⟨ch, -, hrun⟩ := hrun
    split at hrun
    · simp only [Option.some.injEq, Prod.mk.injEq] at hrun
      exact absurd hrun.1.symm hr
    · split at hrun
      · simp only [Option.some.injEq, Prod.mk.injEq] at hrun
        exact absurd hrun.1.symm hr
      · simp only [Option.bind_eq_some, Option.some.injEq, Prod.mk.injEq] at hrun
        obtain ⟨x1, -, rfl, rfl⟩ := hrun
        exact ⟨[x1.1], rfl, by simp [Call.with_ptrs, Call.as_given]⟩
  | commit confirmed confirm_timeout persist persist_id =>
    simp only [Call.run, nc_rpc_commit] at hrun
    split at hrun
    · simp only [Option.some.injEq, Prod.mk.injEq] at hrun
      exact absurd hrun.1.symm hr
    · simp only [Option.bind_eq_some, Option.some.injEq, Prod.mk.injEq] at hrun
      obtain ⟨x1, -, x2, -, rfl, rfl⟩ := hrun
      exact ⟨[x1.1, x2.1], rfl, by simp [Call.with_ptrs, Call.as_given]⟩
  | cancel persist_id =>
    simp only [Call.run, nc_rpc_cancel] at hrun
    split at hrun
    · simp only [Option.some.injEq, Prod.mk.injEq] at hrun
      exact absurd hrun.1.symm hr
    · simp only [Option.bind_eq_some, Option.some.injEq, Prod.mk.injEq] at hrun
      obtain ⟨x1, -, rfl, rfl⟩ := hrun
      exact ⟨[x1.1], rfl, by simp [Call.with_ptrs, Call.as_given]⟩
  | validate source url_or_config =>
    simp only [Call.run, nc_rpc_validate, Option.bind_eq_some] at hrun
    obtain ⟨ch, -, hrun⟩ := hrun
    split at hrun
    · simp only [Option.some.injEq, Prod.mk.injEq] at hrun
      exact absurd hrun.1.symm hr
    · split at hrun
      · simp only [Option.some.injEq, Prod.mk.injEq] at hrun
        exact absurd hrun.1.symm hr
      · simp only [Option.bind_eq_some, Option.some.injEq, Prod.mk.injEq] at hrun
        obtain ⟨x1, -, rfl, rfl⟩ := hrun
        exact ⟨[x1.1], rfl, by simp [Call.with_ptrs, Call.as_given]⟩
  | getschema identifier version format =>
    simp only [Call.run, nc_rpc_getschema] at hrun
    split at hrun
    · simp only [Option.some.injEq, Prod.mk.injEq] at hrun
      exact absurd hrun.1.symm hr
    · simp only [Option.bind_eq_some, Option.some.injEq, Prod.mk.injEq] at hrun
      obtain ⟨x1, -, x2, -, x3, -, rfl, rfl⟩ := hrun
      exact ⟨[x1.1, x2.1, x3.1], rfl, by simp [Call.with_ptrs, Call.as_given]⟩
  | subscribe stream_name filter start_time stop_time =>
    simp only [Call.run, nc_rpc_subscribe, Option.bind_eq_some] at hrun
    obtain ⟨ch, -, hrun⟩ := hrun
    split at hrun
    · simp only [Option.some.injEq, Prod.mk.injEq] at hrun
      exact absurd hrun.1.symm hr
    · split at hrun
      · simp only [Option.some.injEq, Prod.mk.injEq] at hrun
        exact absurd hrun.1.symm hr
      · simp only [Option.bind_eq_some, Option.some.injEq, Prod.mk.injEq] at hrun
        obtain ⟨x1, -, x2, -, x3, -, x4, -, rfl, rfl⟩ := hrun
        exact ⟨[x1.1, x2.1, x3.1, x4.1], rfl, by simp [Call.with_ptrs, Call.as_given]⟩

theorem Call.kind_with_ptrs (c : Call) (qs : List Ptr) (fl : Nat) :
    ((c.with_ptrs qs).as_given fl).rpc_type = some c.kind := by
  cases c <;> rcases qs with _ | ⟨a, _ | ⟨b, _ | ⟨d, _ | ⟨e, _ | _⟩⟩⟩⟩ <;> rfl

theorem nc_rpc_free_plain (s : State) (a : Ptr) (o : Obj) (ha : a ≠ 0)
    (hg : s.get? a = some o)
    (ht : o.rpc_type = some .NC_RPC_LOCK ∨ o.rpc_type = some .NC_RPC_UNLOCK ∨
      o.rpc_type = some .NC_RPC_KILL ∨ o.rpc_type = some .NC_RPC_DISCARD) :
    nc_rpc_free a s = some ((s.del a).emit (Event.free a)) := by
  have hf : free a s = some ((s.del a).emit (Event.free a)) := by
    simp [free, ha, hg]
  unfold nc_rpc_free
  rw [if_neg ha, hg, Option.some_bind]
  rcases ht with ht | ht | ht | ht <;> rw [ht] <;> simp only [Option.some_bind, hf]

/-- C18: a constructor that returns a request returns one whose discriminant is the kind
of the operation it builds and whose scalar parameters are those given. With memory for
the request object, `nc_rpc_lock(t)` returns a `NC_RPC_LOCK` record with target `t`,
`nc_rpc_unlock(t)` a lock record of kind `NC_RPC_UNLOCK` with target `t`, `nc_rpc_kill(s)`
a `NC_RPC_KILL` record with session id `s`, `nc_rpc_discard()` a `NC_RPC_DISCARD` record,
and `nc_rpc_free` on each of these releases the request object and nothing else. Every
request a constructor with a policy returns has the kind of the call and its scalars, in
particular the confirmed flag and the timeout of `nc_rpc_commit`. -/
theorem constructed_request_has_its_kind (h : State) (target : NC_DATASTORE)
    (session_id : Nat) (hm : h.alloc_fails = false) :
    (nc_rpc_lock target h =
        some (h.fresh, h.after_malloc.set h.fresh (Obj.nc_rpc_lock .NC_RPC_LOCK target)) ∧
      nc_rpc_unlock target h =
        some (h.fresh, h.after_malloc.set h.fresh (Obj.nc_rpc_lock .NC_RPC_UNLOCK target)) ∧
      nc_rpc_kill session_id h =
        some (h.fresh, h.after_malloc.set h.fresh (Obj.nc_rpc_kill .NC_RPC_KILL session_id)) ∧
      nc_rpc_discard h =
        some (h.fresh, h.after_malloc.set h.fresh (Obj.nc_rpc .NC_RPC_DISCARD))) ∧
    (∀ o ∈ [Obj.nc_rpc_lock .NC_RPC_LOCK target, Obj.nc_rpc_lock .NC_RPC_UNLOCK target,
        Obj.nc_rpc_kill .NC_RPC_KILL session_id, Obj.nc_rpc .NC_RPC_DISCARD],
      ∃ h2, nc_rpc_free h.fresh (h.after_malloc.set h.fresh o) = some h2 ∧
        h2.log = h.log ++ [Event.malloc h.fresh, Event.free h.fresh] ∧
        ∀ q, h2.get? q = h.get? q) ∧
    (∀ (c : Call) (p : NC_RPC_PARAMTYPE) (r : Ptr) (h1 : State),
      c.run p h = some (r, h1) → r ≠ 0 →
      ∃ qs, h1.get? r = some ((c.with_ptrs qs).as_given
          (if p = .NC_RPC_PARAMTYPE_CONST then 0 else 1)) ∧
        ((c.with_ptrs qs).as_given
          (if p = .NC_RPC_PARAMTYPE_CONST then 0 else 1)).rpc_type = some c.kind) ∧
    (∀ (confirmed : Int) (confirm_timeout : Nat) (persist persist_id : Ptr)
      (p : NC_RPC_PARAMTYPE) (r : Ptr) (h1 : State),
      nc_rpc_commit confirmed confirm_timeout persist persist_id p h = some (r, h1) →
      r ≠ 0 →
      ∃ a b fl, h1.get? r =
        some (Obj.nc_rpc_commit .NC_RPC_COMMIT confirmed confirm_timeout a b fl)) := by
  refine ⟨?_, ?_, ?_, ?_⟩
  · simp [nc_rpc_lock, nc_rpc_unlock, nc_rpc_kill, nc_rpc_discard, malloc_ok hm,
      State.fresh_ne_zero]
  · intro o ho
    have ht : o.rpc_type = some .NC_RPC_LOCK ∨ o.rpc_type = some .NC_RPC_UNLOCK ∨
        o.rpc_type = some .NC_RPC_KILL ∨ o.rpc_type = some .NC_RPC_DISCARD := by
      simp only [List.mem_cons, List.mem_singleton, List.not_mem_nil, or_false] at ho
      rcases ho with rfl | rfl | rfl | rfl <;> simp [Obj.rpc_type]
    refine ⟨_, nc_rpc_free_plain _ _ o (State.fresh_ne_zero h) (by simp) ht, by simp, ?_⟩
    intro q
    by_cases hq : q = h.fresh
    · subst hq
      simp [State.get?_fresh]
    · simp [hq, State.get?_after_malloc]
  · intro c p r h1 hrun hr
    obtain ⟨qs, -, hrec⟩ := Call.run_success_record c p h r h1 hrun hr
    exact ⟨qs, hrec, Call.kind_with_ptrs c qs _⟩
  · intro confirmed confirm_timeout persist persist_id p r h1 hrun hr
    obtain ⟨qs, hlen, hrec⟩ := Call.run_success_record
      (.commit confirmed confirm_timeout persist persist_id) p h r h1 hrun hr
    rcases qs with _ | ⟨a, _ | ⟨b, _ | _⟩⟩ <;> simp [Call.ptrs] at hlen
    exact ⟨a, b, _, hrec⟩

/-- C18 at concrete calls on `sample`, among them `nc_rpc_commit(1, 30, "abc", NULL)`
with `DUP_AND_FREE`, which returns the request 11. -/
theorem constructed_request_has_its_kind_witness :
    (nc_rpc_commit 1 30 3 0 .NC_RPC_PARAMTYPE_DUP_AND_FREE sample).map
      (fun r => (r.1, r.2.get? r.1)) =
      some (11, some (Obj.nc_rpc_commit .NC_RPC_COMMIT 1 30 12 0 1)) ∧
    (nc_rpc_lock 2 sample =
        some (sample.fresh, sample.after_malloc.set sample.fresh
          (Obj.nc_rpc_lock .NC_RPC_LOCK 2)) ∧
      nc_rpc_unlock 2 sample =
        some (sample.fresh, sample.after_malloc.set sample.fresh
          (Obj.nc_rpc_lock .NC_RPC_UNLOCK 2)) ∧
      nc_rpc_kill 7 sample =
        some (sample.fresh, sample.after_malloc.set sample.fresh
          (Obj.nc_rpc_kill .NC_RPC_KILL 7)) ∧
      nc_rpc_discard sample =
        some (sample.fresh, sample.after_malloc.set sample.fresh
          (Obj.nc_rpc .NC_RPC_DISCARD))) :=
  ⟨by decide, (constructed_request_has_its_kind sample 2 7 (by decide)).1⟩

/-! ## The shape checks read one character -/

theorem begins_xml_xpath_or_letter_head (b b2 : List Nat) (hh : b.headD 0 = b2.headD 0) :
    begins_xml_xpath_or_letter b = begins_xml_xpath_or_letter b2 := by
  rcases b with _ | ⟨c, rest⟩ <;> rcases b2 with _ | ⟨c2, rest2⟩ <;>
    simp only [List.headD_nil, List.headD_cons] at hh
  · rfl
  · subst hh
    simp [begins_xml_xpath_or_letter]
  · subst hh
    simp [begins_xml_xpath_or_letter]
  · subst hh
    rfl

theorem begins_xml_or_letter_head (b b2 : List Nat) (hh : b.headD 0 = b2.headD 0) :
    begins_xml_or_letter b = begins_xml_or_letter b2 := by
  rcases b with _ | ⟨c, rest⟩ <;> rcases b2 with _ | ⟨c2, rest2⟩ <;>
    simp only [List.headD_nil, List.headD_cons] at hh
  · rfl
  · subst hh
    simp [begins_xml_or_letter]
  · subst hh
    simp [begins_xml_or_letter]
  · subst hh
    rfl

theorem Call.shape_head (c : Call) (b b2 : List Nat) (hh : b.headD 0 = b2.headD 0) :
    c.shape b = c.shape b2 := by
  cases c <;>
    first
    | exact begins_xml_xpath_or_letter_head b b2 hh
    | exact begins_xml_or_letter_head b b2 hh

theorem Call.shape_nil (c : Call) : c.shape [] = false := by
  cases c <;> rfl

theorem Call.shape_of_kind (c c2 : Call) (hk : c.kind = c2.kind) (b : List Nat) :
    c.shape b = c2.shape b := by
  cases c <;> cases c2 <;> first | rfl | cases hk

theorem Call.accepted_of_shape (c : Call) (h : State) (s : Ptr) (b : List Nat)
    (hs : c.checked = some s) (h0 : s ≠ 0) (hg : h.get? s = some (Obj.cstr b))
    (hok : c.shape b = true) : c.accepted h = true := by
  cases c <;> simp only [Call.checked, Option.some.injEq] at hs <;> try cases hs
  all_goals
    simp only [Call.accepted, Call.shape] at hok ⊢
    simp [is_string_with_iff, h0, hg, hok]

theorem Call.rejected_of_shape (c : Call) (h : State) (s : Ptr) (b : List Nat)
    (hs : c.checked = some s) (h0 : s ≠ 0) (hg : h.get? s = some (Obj.cstr b))
    (hbad : c.shape b = false) : c.rejected h = true := by
  cases c <;> simp only [Call.checked, Option.some.injEq] at hs <;> try cases hs
  all_goals
    simp only [Call.rejected, Call.shape] at hbad ⊢
    simp [is_string_with_iff, h0, hg, hbad]

/-- The outcome of a constructor with a shape check on a string: a request exactly when
the string has the shape. -/
theorem Call.checked_outcome (c : Call) (p : NC_RPC_PARAMTYPE) (h : State) (s : Ptr)
    (b : List Nat) (hs : c.checked = some s) (h0 : s ≠ 0)
    (hg : h.get? s = some (Obj.cstr b)) (hv : c.strings_valid h = true)
    (hm : h.alloc_fails = false) :
    ∃ r h1, c.run p h = some (r, h1) ∧ (r ≠ 0 ↔ c.shape b = true) := by
  by_cases hok : c.shape b = true
  · obtain ⟨h1, e1⟩ := Call.run_returns c p h (Call.accepted_of_shape c h s b hs h0 hg hok) hv hm
    exact ⟨_, _, e1, by simp [hok, State.fresh_ne_zero]⟩
  · have hbad : c.shape b = false := by simpa using hok
    exact ⟨0, h, Call.run_rejects c p h (Call.rejected_of_shape c h s b hs h0 hg hbad),
      by simp [hbad]⟩

/-- C19: the shape check reads the first character of the string and nothing else. Two
calls of the same constructor, in any two states and under any two policies, with any
other arguments, whose checked strings have the same first character (the terminator
for the empty string), are both accepted or both rejected; the empty string is
rejected. (Memory for the request object is assumed in both states.) -/
theorem shape_check_reads_first_character_only (c c2 : Call) (p p2 : NC_RPC_PARAMTYPE)
    (h h2 : State) (s s2 : Ptr) (b b2 : List Nat) (hk : c.kind = c2.kind)
    (hs : c.checked = some s) (hs2 : c2.checked = some s2) (h0 : s ≠ 0) (h02 : s2 ≠ 0)
    (hg : h.get? s = some (Obj.cstr b)) (hg2 : h2.get? s2 = some (Obj.cstr b2))
    (hv : c.strings_valid h = true) (hv2 : c2.strings_valid h2 = true)
    (hm : h.alloc_fails = false) (hm2 : h2.alloc_fails = false)
    (hh : b.headD 0 = b2.headD 0) :
    ∃ r h1 r2 h12, c.run p h = some (r, h1) ∧ c2.run p2 h2 = some (r2, h12) ∧
      (r ≠ 0 ↔ r2 ≠ 0) ∧ (b = [] → r = 0 ∧ r2 = 0) := by
  obtain ⟨r, h1, e1, i1⟩ := Call.checked_outcome c p h s b hs h0 hg hv hm
  obtain ⟨r2, h12, e2, i2⟩ := Call.checked_outcome c2 p2 h2 s2 b2 hs2 h02 hg2 hv2 hm2
  have hsame : c.shape b = c2.shape b2 := by
    rw [Call.shape_head c b b2 hh, Call.shape_of_kind c c2 hk]
  refine ⟨r, h1, r2, h12, e1, e2, ?_, ?_⟩
  · rw [i1, i2, hsame]
  · intro hb
    subst hb
    have hr : r = 0 := by
      by_contra hne
      have := i1.1 hne
      rw [Call.shape_nil] at this
      cases this
    have hr2 : r2 = 0 := by
      by_contra hne
      have := i2.1 hne
      rw [← hsame, Call.shape_nil] at this
      cases this
    exact ⟨hr, hr2⟩

/-- C19 at concrete calls on `sample_strings`: `nc_rpc_get` on `abc` against `nc_rpc_get`
on `axyz`, `nc_rpc_edit` on the empty string under two policies with different scalars,
and `nc_rpc_copy` with the source `1a` against the source `12`. -/
theorem shape_check_reads_first_character_only_witness :
    (∃ r h1 r2 h12,
      (Call.get 1).run .NC_RPC_PARAMTYPE_CONST sample_strings = some (r, h1) ∧
      (Call.get 2).run .NC_RPC_PARAMTYPE_DUP_AND_FREE sample_strings = some (r2, h12) ∧
      (r ≠ 0 ↔ r2 ≠ 0) ∧ (cstring "abc" = [] → r = 0 ∧ r2 = 0)) ∧
    (∃ r h1 r2 h12,
      (Call.edit 1 0 0 0 3).run .NC_RPC_PARAMTYPE_FREE sample_strings = some (r, h1) ∧
      (Call.edit 2 1 1 1 3).run .NC_RPC_PARAMTYPE_DUP_AND_FREE sample_strings =
        some (r2, h12) ∧
      (r ≠ 0 ↔ r2 ≠ 0) ∧ (cstring "" = [] → r = 0 ∧ r2 = 0)) ∧
    (∃ r h1 r2 h12,
      (Call.copy 1 0 2 4).run .NC_RPC_PARAMTYPE_FREE sample_strings = some (r, h1) ∧
      (Call.copy 2 1 1 5).run .NC_RPC_PARAMTYPE_CONST sample_strings = some (r2, h12) ∧
      (r ≠ 0 ↔ r2 ≠ 0) ∧ (cstring "1a" = [] → r = 0 ∧ r2 = 0)) :=
  ⟨shape_check_reads_first_character_only (.get 1) (.get 2) .NC_RPC_PARAMTYPE_CONST
      .NC_RPC_PARAMTYPE_DUP_AND_FREE sample_strings sample_strings 1 2 (cstring "abc")
      (cstring "axyz") rfl rfl rfl
      (by decide) (by decide) (by decide) (by decide) (by decide) (by decide) (by decide)
      (by decide) (by decide),
    shape_check_reads_first_character_only (.edit 1 0 0 0 3) (.edit 2 1 1 1 3)
      .NC_RPC_PARAMTYPE_FREE .NC_RPC_PARAMTYPE_DUP_AND_FREE sample_strings sample_strings
      3 3 (cstring "") (cstring "") rfl rfl rfl (by decide) (by decide) (by decide) (by decide) (by decide)
      (by decide) (by decide) (by decide) (by decide),
    shape_check_reads_first_character_only (.copy 1 0 2 4) (.copy 2 1 1 5)
      .NC_RPC_PARAMTYPE_FREE .NC_RPC_PARAMTYPE_CONST sample_strings sample_strings
      4 5 (cstring "1a") (cstring "12") rfl rfl rfl (by decide) (by decide) (by decide) (by decide) (by decide)
      (by decide) (by decide) (by decide) (by decide)⟩

/-! ## Duplication under `DUP_AND_FREE` with no allocation failure -/

theorem State.no_failure_alloc_fails {h : State} (hm : h.no_failure = true) :
    h.alloc_fails = false := by
  unfold State.no_failure at hm
  unfold State.alloc_fails
  cases ho : h.oom with
  | nil => rfl
  | cons b rest =>
    rw [ho] at hm
    simpa using (List.all_eq_true.1 hm) b (List.mem_cons_self _ _)

theorem State.no_failure_tail (mem : List (Ptr × Obj)) (log : List Event) {h : State}
    (hm : h.no_failure = true) : (State.mk mem h.oom.tail log).no_failure = true := by
  unfold State.no_failure at hm ⊢
  rw [List.all_eq_true] at hm ⊢
  intro b hb
  exact hm b (List.mem_of_mem_tail hb)

theorem State.no_failure_after_malloc {h : State} (hm : h.no_failure = true) :
    h.after_malloc.no_failure = true :=
  State.no_failure_tail _ _ hm

theorem dup_one_null (h : State) : dup_one 0 h = (0, h) := by
  simp [dup_one]

theorem dup_one_cstr {h : State} {s : Ptr} {bytes : List Nat} (hs : s ≠ 0)
    (hg : h.get? s = some (Obj.cstr bytes)) :
    dup_one s h = (h.fresh, State.mk ((h.fresh, Obj.cstr bytes) :: h.mem) h.oom.tail
      (h.log ++ [Event.strdup s h.fresh])) := by
  simp [dup_one, hs, hg]

theorem dup_one_no_failure {h : State} (s : Ptr) (hm : h.no_failure = true) :
    (dup_one s h).2.no_failure = true := by
  unfold dup_one
  split
  · exact hm
  · split
    · exact State.no_failure_tail _ _ hm
    · exact hm

theorem dup_one_within (h : State) (s : Ptr) : h.within (dup_one s h).2 := by
  unfold dup_one
  split
  · exact State.within_refl h
  · split
    · intro p o hp
      show (State.mk _ _ _).get? p = some o
      rw [State.get?_cons, if_neg (State.ne_fresh hp)]
      exact hp
    · exact State.within_refl h

theorem null_or_string_within {h k : State} (hw : h.within k) {s : Ptr}
    (hs : null_or_string s h = true) : null_or_string s k = true :=
  (null_or_string_iff s k).2 (valid_within hw ((null_or_string_iff s h).1 hs))

/-- The step `if (s && paramtype == DUP_AND_FREE) strdup(s) else s` of the constructors,
when no allocation fails, is the duplication of the specification. -/
theorem dup_opt_eq {h : State} {s : Ptr} {p : NC_RPC_PARAMTYPE}
    (hp : p = .NC_RPC_PARAMTYPE_DUP_AND_FREE) (hs : null_or_string s h = true)
    (hm : h.no_failure = true) :
    (if s ≠ 0 ∧ p = .NC_RPC_PARAMTYPE_DUP_AND_FREE then strdup s h else some (s, h)) =
      some (dup_one s h) := by
  by_cases h0 : s = 0
  · subst h0
    simp [dup_one]
  · obtain ⟨bytes, hg⟩ := (null_or_string_iff s h).1 hs h0
    rw [if_pos ⟨h0, hp⟩, dup_one_cstr h0 hg]
    simp [strdup, h0, hg, State.alloc_ok (State.no_failure_alloc_fails hm),
      State.fresh_ne_zero, State.emit]

/-- The step `if (paramtype == DUP_AND_FREE) strdup(s) else s` on a required string. -/
theorem dup_req_eq {h : State} {s : Ptr} {p : NC_RPC_PARAMTYPE}
    (hp : p = .NC_RPC_PARAMTYPE_DUP_AND_FREE)
    (hs : is_string_with (fun _ => true) s h = true) (hm : h.no_failure = true) :
    (if p = .NC_RPC_PARAMTYPE_DUP_AND_FREE then strdup s h else some (s, h)) =
      some (dup_one s h) := by
  obtain ⟨h0, bytes, hg⟩ := (is_string_iff s h).1 hs
  rw [if_pos hp, dup_one_cstr h0 hg]
  simp [strdup, h0, hg, State.alloc_ok (State.no_failure_alloc_fails hm),
    State.fresh_ne_zero, State.emit]

theorem null_or_string_of_src {h : State} {s : Ptr}
    (ha : (s == 0 || is_string_with begins_xml_or_letter s h) = true) :
    null_or_string s h = true := by
  by_cases hs : s = 0
  · simp [null_or_string, hs]
  · have hb : is_string_with begins_xml_or_letter s h = true := by simpa [hs] using ha
    obtain ⟨-, bytes, hg, -⟩ := (is_string_with_iff _ _ _).1 hb
    exact (null_or_string_iff _ _).2 (fun _ => ⟨bytes, hg⟩)

/-- Under `DUP_AND_FREE` with no allocation failure, a constructor with optional strings
stores the duplication of its parameters as the specification words it. -/
theorem Call.run_dup_eq (c : Call) (p : NC_RPC_PARAMTYPE) (h : State)
    (hp : p = .NC_RPC_PARAMTYPE_DUP_AND_FREE) (hc : c.has_optional_string = true)
    (ha : c.accepted h = true) (hv : c.strings_valid h = true)
    (hm : h.no_failure = true) :
    c.run p h = some (h.fresh, (dup_all c.ptrs h.after_malloc).2.set h.fresh
      ((c.with_ptrs (dup_all c.ptrs h.after_malloc).1).as_given 1)) := by
  have hw := State.within_after_malloc h
  have hm0 := State.no_failure_after_malloc hm
  have hmal := malloc_ok (State.no_failure_alloc_fails hm)
  have hfl : (if p = NC_RPC_PARAMTYPE.NC_RPC_PARAMTYPE_CONST then 0 else 1) = 1 := by
    rw [hp]
    rfl
  cases c with
  | commit confirmed confirm_timeout persist persist_id =>
    simp only [Call.strings_valid, Bool.and_eq_true] at hv
    have e1 := dup_opt_eq hp (null_or_string_within hw hv.1) hm0
    have w1 := State.within_trans hw (dup_one_within h.after_malloc persist)
    have e2 := dup_opt_eq hp (null_or_string_within w1 hv.2) (dup_one_no_failure persist hm0)
    simp only [Call.run, nc_rpc_commit, hmal, State.fresh_ne_zero, if_false, e1, e2,
      Option.some_bind, Call.ptrs, dup_all, Call.with_ptrs, Call.as_given, hfl]
  | cancel persist_id =>
    have e1 := dup_opt_eq hp (null_or_string_within hw hv) hm0
    simp only [Call.run, nc_rpc_cancel, hmal, State.fresh_ne_zero, if_false, e1,
      Option.some_bind, Call.ptrs, dup_all, Call.with_ptrs, Call.as_given, hfl]
  | delete target url =>
    have e1 := dup_opt_eq hp (null_or_string_within hw hv) hm0
    simp only [Call.run, nc_rpc_delete, hmal, State.fresh_ne_zero, if_false, e1,
      Option.some_bind, Call.ptrs, dup_all, Call.with_ptrs, Call.as_given, hfl]
  | copy target url_trg source url_or_config_src =>
    have hsrc := null_or_string_of_src ha
    have e1 := dup_opt_eq hp (null_or_string_within hw hv) hm0
    have w1 := State.within_trans hw (dup_one_within h.after_malloc url_trg)
    have e2 := dup_opt_eq hp (null_or_string_within w1 hsrc) (dup_one_no_failure url_trg hm0)
    simp only [Call.run, nc_rpc_copy, src_rejected_accepted ha, Bool.false_eq_true, hmal,
      State.fresh_ne_zero, if_false, e1, e2, Option.some_bind, Call.ptrs, dup_all,
      Call.with_ptrs, Call.as_given, hfl]
  | validate source url_or_config =>
    have hsrc := null_or_string_of_src ha
    have e1 := dup_opt_eq hp (null_or_string_within hw hsrc) hm0
    simp only [Call.run, nc_rpc_validate, src_rejected_accepted ha, Bool.false_eq_true, hmal,
      State.fresh_ne_zero, if_false, e1, Option.some_bind, Call.ptrs, dup_all,
      Call.with_ptrs, Call.as_given, hfl]
  | getschema identifier version format =>
    simp only [Call.strings_valid, Bool.and_eq_true] at hv
    have hid : is_string_with (fun _ => true) identifier h.after_malloc = true := by
      obtain ⟨h0, bytes, hg⟩ := (is_string_iff _ _).1 hv.1.1
      exact (is_string_iff _ _).2 ⟨h0, bytes, hw _ _ hg⟩
    have e1 := dup_req_eq hp hid hm0
    have w1 := State.within_trans hw (dup_one_within h.after_malloc identifier)
    have m1 := dup_one_no_failure identifier hm0
    have e2 := dup_opt_eq hp (null_or_string_within w1 hv.1.2) m1
    have w2 := State.within_trans w1 (dup_one_within _ version)
    have e3 := dup_opt_eq hp (null_or_string_within w2 hv.2) (dup_one_no_failure version m1)
    simp only [Call.run, nc_rpc_getschema, hmal, State.fresh_ne_zero, if_false, e1, e2, e3,
      Option.some_bind, Call.ptrs, dup_all, Call.with_ptrs, Call.as_given, hfl]
  | subscribe stream_name filter start_time stop_time =>
    obtain ⟨h0, bytes, hg, hok⟩ := (is_string_with_iff _ _ _).1 ha
    have hc2 : ¬ (bytes.headD 0 ≠ 60 ∧ bytes.headD 0 ≠ 47 ∧ isalpha (bytes.headD 0) = false) :=
      fun hx => by simp [(filter_check_iff bytes).1 hx] at hok
    have hfil : null_or_string filter h = true :=
      (null_or_string_iff _ _).2 (fun _ => ⟨bytes, hg⟩)
    simp only [Call.strings_valid, Bool.and_eq_true] at hv
    have e1 := dup_opt_eq hp (null_or_string_within hw hv.1.1) hm0
    have w1 := State.within_trans hw (dup_one_within h.after_malloc stream_name)
    have m1 := dup_one_no_failure stream_name hm0
    have e2 := dup_opt_eq hp (null_or_string_within w1 hfil) m1
    have w2 := State.within_trans w1 (dup_one_within _ filter)
    have m2 := dup_one_no_failure filter m1
    have e3 := dup_opt_eq hp (null_or_string_within w2 hv.1.2) m2
    have w3 := State.within_trans w2 (dup_one_within _ start_time)
    have e4 := dup_opt_eq hp (null_or_string_within w3 hv.2) (dup_one_no_failure start_time m2)
    simp only [Call.run, nc_rpc_subscribe, load_char0_cstr h0 hg, Option.some_bind]
    rw [if_neg hc2]
    simp only [hmal, State.fresh_ne_zero, if_false, e1, e2, e3, e4,
      Option.some_bind, Call.ptrs, dup_all, Call.with_ptrs, Call.as_given, hfl]
  | generic _ => simp [Call.has_optional_string] at hc
  | generic_xml _ => simp [Call.has_optional_string] at hc
  | getconfig _ _ => simp [Call.has_optional_string] at hc
  | edit _ _ _ _ _ => simp [Call.has_optional_string] at hc
  | get _ => simp [Call.has_optional_string] at hc

theorem dup_all_cons (s : Ptr) (ss : List Ptr) (k : State) :
    dup_all (s :: ss) k =
      ((dup_one s k).1 :: (dup_all ss (dup_one s k).2).1, (dup_all ss (dup_one s k).2).2) :=
  rfl

theorem strdup_events_cons_null (ss qs : List Ptr) (q : Ptr) :
    strdup_events (0 :: ss) (q :: qs) = strdup_events ss qs := by
  simp [strdup_events]

theorem strdup_events_cons (s q : Ptr) (ss qs : List Ptr) (hs : s ≠ 0) :
    strdup_events (s :: ss) (q :: qs) = Event.strdup s q :: strdup_events ss qs := by
  simp [strdup_events, List.filter_cons, hs]

/-- What the duplication of the specification does to the heap. Relative to a state `k0`
whose blocks are all in `k`: an absent parameter gives an absent field; a string gives a
fresh block with the content of the string; the log gains one `strdup` for each string;
the copies are pairwise distinct and live. -/
theorem dup_all_spec (k0 : State) (ss : List Ptr) :
    ∀ k : State, k0.within k → (∀ s ∈ ss, null_or_string s k0 = true) →
      k.within (dup_all ss k).2 ∧
      List.Forall₂ (fun s q => (s = 0 → q = 0) ∧
        (s ≠ 0 → q ≠ 0 ∧ k.get? q = none ∧ (dup_all ss k).2.get? q = k0.get? s))
        ss (dup_all ss k).1 ∧
      (dup_all ss k).2.log = k.log ++ strdup_events ss (dup_all ss k).1 ∧
      ((dup_all ss k).1.filter (fun q => q != 0)).Nodup ∧
      (∀ q ∈ (dup_all ss k).1, q ≠ 0 →
        k.get? q = none ∧ ∃ o, (dup_all ss k).2.get? q = some o) := by
  induction ss with
  | nil =>
    intro k _ _
    exact ⟨State.within_refl k, List.Forall₂.nil, by simp [dup_all, strdup_events],
      by simp [dup_all], by simp [dup_all]⟩
  | cons s ss ih =>
    intro k hw hv
    have hvs := hv s (List.mem_cons_self _ _)
    have hvrest : ∀ x ∈ ss, null_or_string x k0 = true :=
      fun x hx => hv x (List.mem_cons_of_mem _ hx)
    have hw1 := dup_one_within k s
    obtain ⟨iw, ifa, ilog, ind, ilive⟩ := ih (dup_one s k).2 (State.within_trans hw hw1) hvrest
    have hfresh_of : ∀ q, (dup_one s k).2.get? q = none → k.get? q = none := by
      intro q hq
      cases hg : k.get? q with
      | none => rfl
      | some o =>
        rw [hw1 q o hg] at hq
        cases hq
    have htail : List.Forall₂ (fun x q => (x = 0 → q = 0) ∧
        (x ≠ 0 → q ≠ 0 ∧ k.get? q = none ∧
          (dup_all ss (dup_one s k).2).2.get? q = k0.get? x))
        ss (dup_all ss (dup_one s k).2).1 := by
      refine List.Forall₂.imp ?_ ifa
      intro a b hab
      exact ⟨hab.1, fun ha => ⟨(hab.2 ha).1, hfresh_of b (hab.2 ha).2.1, (hab.2 ha).2.2⟩⟩
    rw [dup_all_cons]
    by_cases h0 : s = 0
    · subst h0
      have hk : (dup_one 0 k).2 = k := by rw [dup_one_null]
      refine ⟨State.within_trans hw1 iw, List.Forall₂.cons ⟨fun _ => ?_, fun hne => ?_⟩ htail,
        ?_, ?_, ?_⟩
      · rw [dup_one_null]
      · exact absurd rfl hne
      · show (dup_all ss (dup_one 0 k).2).2.log = _
        rw [ilog, hk, dup_one_null, strdup_events_cons_null]
      · show (List.filter _ ((dup_one 0 k).1 :: _)).Nodup
        rw [dup_one_null]
        simpa using ind
      · intro q hq hq0
        show k.get? q = none ∧ ∃ o, (dup_all ss (dup_one 0 k).2).2.get? q = some o
        rw [dup_one_null] at hq
        rcases List.mem_cons.1 hq with hq1 | hq1
        · exact absurd hq1 hq0
        · exact ⟨hfresh_of q (ilive q hq1 hq0).1, (ilive q hq1 hq0).2⟩
    · obtain ⟨bytes, hg0⟩ := (null_or_string_iff s k0).1 hvs h0
      have hg := hw s _ hg0
      have hone := dup_one_cstr h0 hg
      have hq1 : (dup_one s k).1 = k.fresh := by rw [hone]
      have hcopy : (dup_one s k).2.get? k.fresh = some (Obj.cstr bytes) := by
        rw [hone]
        show (State.mk _ _ _).get? k.fresh = _
        rw [State.get?_cons, if_pos rfl]
      have hlog1 : (dup_one s k).2.log = k.log ++ [Event.strdup s k.fresh] := by
        rw [hone]
      refine ⟨State.within_trans hw1 iw,
        List.Forall₂.cons ⟨fun he => absurd he h0, fun _ => ?_⟩ htail, ?_, ?_, ?_⟩
      · rw [hq1]
        exact ⟨State.fresh_ne_zero k, State.get?_fresh k, by rw [iw _ _ hcopy, hg0]⟩
      · show (dup_all ss (dup_one s k).2).2.log = _
        rw [ilog, hlog1, hq1, strdup_events_cons _ _ _ _ h0]
        simp
      · show (List.filter _ ((dup_one s k).1 :: _)).Nodup
        rw [hq1]
        have hf : List.filter (fun q => q != 0) (k.fresh :: (dup_all ss (dup_one s k).2).1) =
            k.fresh :: List.filter (fun q => q != 0) (dup_all ss (dup_one s k).2).1 := by
          simp [List.filter_cons, State.fresh_ne_zero]
        rw [hf]
        refine List.nodup_cons.2 ⟨?_, ind⟩
        intro hmem
        obtain ⟨hm1, hm2⟩ := List.mem_filter.1 hmem
        have := (ilive k.fresh hm1 (State.fresh_ne_zero k)).1
        rw [hcopy] at this
        cases this
      · intro q hq hq0
        show k.get? q = none ∧ ∃ o, (dup_all ss (dup_one s k).2).2.get? q = some o
        rw [hq1] at hq
        rcases List.mem_cons.1 hq with hqe | hqe
        · subst hqe
          exact ⟨State.get?_fresh k, _, iw _ _ hcopy⟩
        · exact ⟨hfresh_of q (ilive q hqe hq0).1, (ilive q hqe hq0).2⟩

theorem Call.ptrs_valid (c : Call) (h : State) (hc : c.has_optional_string = true)
    (ha : c.accepted h = true) (hv : c.strings_valid h = true) :
    ∀ s ∈ c.ptrs, null_or_string s h = true := by
  have hreq : ∀ x, is_string_with (fun _ => true) x h = true → null_or_string x h = true := by
    intro x hx
    obtain ⟨-, bytes, hg⟩ := (is_string_iff x h).1 hx
    exact (null_or_string_iff x h).2 (fun _ => ⟨bytes, hg⟩)
  cases c with
  | commit confirmed confirm_timeout persist persist_id =>
    simp only [Call.strings_valid, Bool.and_eq_true] at hv
    simp [Call.ptrs, hv.1, hv.2]
  | cancel persist_id => simpa [Call.ptrs, Call.strings_valid] using hv
  | delete target url => simpa [Call.ptrs, Call.strings_valid] using hv
  | copy target url_trg source url_or_config_src =>
    have hsrc := null_or_string_of_src ha
    simp only [Call.strings_valid] at hv
    simp [Call.ptrs, hv, hsrc]
  | validate source url_or_config =>
    have hsrc := null_or_string_of_src ha
    simp [Call.ptrs, hsrc]
  | getschema identifier version format =>
    simp only [Call.strings_valid, Bool.and_eq_true] at hv
    simp [Call.ptrs, hreq _ hv.1.1, hv.1.2, hv.2]
  | subscribe stream_name filter start_time stop_time =>
    obtain ⟨h0, bytes, hg, -⟩ := (is_string_with_iff _ _ _).1 ha
    have hfil : null_or_string filter h = true :=
      (null_or_string_iff _ _).2 (fun _ => ⟨bytes, hg⟩)
    simp only [Call.strings_valid, Bool.and_eq_true] at hv
    simp [Call.ptrs, hv.1.1, hv.1.2, hv.2, hfil]
  | generic _ => simp [Call.has_optional_string] at hc
  | generic_xml _ => simp [Call.has_optional_string] at hc
  | getconfig _ _ => simp [Call.has_optional_string] at hc
  | edit _ _ _ _ _ => simp [Call.has_optional_string] at hc
  | get _ => simp [Call.has_optional_string] at hc

theorem Call.released_with_ptrs_sublist (c : Call) (qs : List Ptr)
    (hlen : qs.length = c.ptrs.length) : List.Sublist (c.with_ptrs qs).released qs := by
  cases c <;> rcases qs with _ | ⟨a, _ | ⟨b, _ | ⟨d, _ | ⟨e, _ | _⟩⟩⟩⟩ <;>
    simp [Call.ptrs] at hlen <;> simp [Call.with_ptrs, Call.released]

theorem Call.release_event_with_ptrs (c : Call) (qs : List Ptr)
    (hc : c.has_optional_string = true) (q : Ptr) :
    (c.with_ptrs qs).release_event q = Event.free q := by
  cases c <;> rcases qs with _ | ⟨a, _ | ⟨b, _ | ⟨d, _ | ⟨e, _ | _⟩⟩⟩⟩ <;>
    first
    | rfl
    | simp [Call.has_optional_string] at hc

theorem Call.can_release_with_ptrs (c : Call) (qs : List Ptr)
    (hc : c.has_optional_string = true) (q : Ptr) (s : State) (o : Obj)
    (hg : s.get? q = some o) : (c.with_ptrs qs).can_release q s = true := by
  cases c <;> rcases qs with _ | ⟨a, _ | ⟨b, _ | ⟨d, _ | ⟨e, _ | _⟩⟩⟩⟩ <;>
    first
    | (simp [Call.has_optional_string] at hc; done)
    | simp [Call.with_ptrs, Call.can_release, hg]

/-- C16: under `DUP_AND_FREE`, with no allocation failure, each of `nc_rpc_commit`,
`nc_rpc_cancel`, `nc_rpc_delete`, `nc_rpc_copy`, `nc_rpc_validate`, `nc_rpc_getschema`
and `nc_rpc_subscribe` stores a `NULL` parameter as a `NULL` field and duplicates
nothing for it, while every parameter that is a string is duplicated into a fresh
block with the same content: the log gains the `malloc` of the request and one `strdup`
for each string parameter. `nc_rpc_free` on the request then calls `free` on copies that
are not `NULL` and on the request, and on nothing for the absent fields. -/
theorem null_optional_string_is_not_duplicated (c : Call) (h : State)
    (hc : c.has_optional_string = true) (ha : c.accepted h = true)
    (hv : c.strings_valid h = true) (hm : h.no_failure = true) :
    ∃ qs h1 h2,
      c.run .NC_RPC_PARAMTYPE_DUP_AND_FREE h = some (h.fresh, h1) ∧
      h1.get? h.fresh = some ((c.with_ptrs qs).as_given 1) ∧
      List.Forall₂ (fun s q => (s = 0 → q = 0) ∧
        (s ≠ 0 → q ≠ 0 ∧ h.get? q = none ∧ h1.get? q = h.get? s)) c.ptrs qs ∧
      h1.log = h.log ++ Event.malloc h.fresh :: strdup_events c.ptrs qs ∧
      nc_rpc_free h.fresh h1 = some h2 ∧
      h2.log = h1.log ++
        ((c.with_ptrs qs).released.filter (fun q => q != 0)).map Event.free ++
        [Event.free h.fresh] := by
  have hrun := Call.run_dup_eq c .NC_RPC_PARAMTYPE_DUP_AND_FREE h rfl hc ha hv hm
  obtain ⟨-, hfa, hlog, hnd, hlive⟩ := dup_all_spec h c.ptrs h.after_malloc
    (State.within_after_malloc h) (Call.ptrs_valid c h hc ha hv)
  generalize hR : dup_all c.ptrs h.after_malloc = R at hrun hfa hlog hnd hlive
  have hlen : R.1.length = c.ptrs.length := (List.Forall₂.length_eq hfa).symm
  have hne_fresh : ∀ q, h.after_malloc.get? q = none → q ≠ h.fresh := by
    intro q hq he
    rw [he, State.get?_after_malloc, if_pos rfl] at hq
    cases hq
  have hnone : ∀ q, h.after_malloc.get? q = none → h.get? q = none := by
    intro q hq
    have hqf := hne_fresh q hq
    rw [State.get?_after_malloc, if_neg hqf] at hq
    exact hq
  have hg : (R.2.set h.fresh ((c.with_ptrs R.1).as_given 1)).get? h.fresh =
      some ((c.with_ptrs R.1).as_given 1) := by
    simp
  have hsub := Call.released_with_ptrs_sublist c R.1 hlen
  have hl : ∀ p ∈ (c.with_ptrs R.1).released, p ≠ 0 →
      (c.with_ptrs R.1).can_release p (R.2.set h.fresh ((c.with_ptrs R.1).as_given 1)) =
        true := by
    intro p hp hp0
    obtain ⟨hfr, o, ho⟩ := hlive p (hsub.subset hp) hp0
    exact Call.can_release_with_ptrs c R.1 hc p _ o (by simp [hne_fresh p hfr, ho])
  have hnd2 : (((c.with_ptrs R.1).released).filter (fun q => q != 0)).Nodup :=
    List.Nodup.sublist (List.Sublist.filter _ hsub) hnd
  obtain ⟨s2, e, hlog2, hget2⟩ :=
    Call.release_all_spec (c.with_ptrs R.1) _ _ hl hnd2
  have hnotin : h.fresh ∉ ((c.with_ptrs R.1).released).filter (fun q => q != 0) := by
    intro hmem
    obtain ⟨hm1, hm2⟩ := List.mem_filter.1 hmem
    exact hne_fresh _ (hlive _ (hsub.subset hm1) (by simpa using hm2)).1 rfl
  have hs2a : s2.get? h.fresh = some ((c.with_ptrs R.1).as_given 1) := by
    rw [hget2, if_neg hnotin, hg]
  have hfree : free h.fresh s2 = some ((s2.del h.fresh).emit (Event.free h.fresh)) := by
    simp [free, State.fresh_ne_zero, hs2a]
  have hev : List.map (c.with_ptrs R.1).release_event
      (((c.with_ptrs R.1).released).filter (fun q => q != 0)) =
      List.map Event.free (((c.with_ptrs R.1).released).filter (fun q => q != 0)) :=
    List.map_congr_left (fun q _ => Call.release_event_with_ptrs c R.1 hc q)
  refine ⟨R.1, _, (s2.del h.fresh).emit (Event.free h.fresh), hrun, hg, ?_, ?_, ?_, ?_⟩
  · refine List.Forall₂.imp ?_ hfa
    intro a b hab
    refine ⟨hab.1, fun hne => ?_⟩
    obtain ⟨hb0, hbf, hbc⟩ := hab.2 hne
    exact ⟨hb0, hnone b hbf, by simp [hne_fresh b hbf, hbc]⟩
  · simp [hlog]
  · rw [nc_rpc_free_owned _ _ _ (State.fresh_ne_zero h) hg, e, Option.some_bind, hfree]
  · simp [hlog2, hev]

/-- C16 at a concrete call: `nc_rpc_subscribe(NULL, "abc", "/a/b", NULL, DUP_AND_FREE)` on
`sample`. The log shows the two duplications and the two releases of copies. -/
theorem null_optional_string_is_not_duplicated_witness :
    ((nc_rpc_subscribe 0 3 2 0 .NC_RPC_PARAMTYPE_DUP_AND_FREE sample).bind fun r =>
      (nc_rpc_free r.1 r.2).map fun h2 => (r.2.get? r.1, h2.log)) =
      some (some (Obj.nc_rpc_subscribe .NC_RPC_SUBSCRIBE 0 12 13 0 1),
        [Event.malloc 11, Event.strdup 3 12, Event.strdup 2 13, Event.free 12,
          Event.free 13, Event.free 11]) ∧
    ∃ qs h1 h2,
      (Call.subscribe 0 3 2 0).run .NC_RPC_PARAMTYPE_DUP_AND_FREE sample =
        some (sample.fresh, h1) ∧
      h1.get? sample.fresh = some (((Call.subscribe 0 3 2 0).with_ptrs qs).as_given 1) ∧
      List.Forall₂ (fun s q => (s = 0 → q = 0) ∧
        (s ≠ 0 → q ≠ 0 ∧ sample.get? q = none ∧ h1.get? q = sample.get? s))
        (Call.subscribe 0 3 2 0).ptrs qs ∧
      h1.log = sample.log ++ Event.malloc sample.fresh ::
        strdup_events (Call.subscribe 0 3 2 0).ptrs qs ∧
      nc_rpc_free sample.fresh h1 = some h2 ∧
      h2.log = h1.log ++
        (((Call.subscribe 0 3 2 0).with_ptrs qs).released.filter (fun q => q != 0)).map
          Event.free ++
        [Event.free sample.fresh] :=
  ⟨by decide,
    null_optional_string_is_not_duplicated (.subscribe 0 3 2 0) sample (by decide)
      (by decide) (by decide) (by decide)⟩

end Libnetconf2
